import Mathlib

/-!
# MetricsServerTask: shallow embedding of `pkg/tasks/metricsserver.go`

The task drives the metrics-server resources to their desired state and then
removes the resources of the retired prometheus-adapter.  The embedding keeps
the structure of the Go source: `Run` branches on the enabled flag, `create`
is the sequence of ten scoped blocks, `removePrometheusAdapterResources` the
sequence of four.

Go values are embedded as follows.

* A pointer that may be nil is an `Option`; the interface value `error` is
  `Option GoError`, with `none` for nil.
* The factory and the client are collaborators outside the file.  A factory is
  the table of what each of its methods returns; a client is a transition
  function on an arbitrary cluster state, so that it may answer differently
  from call to call.
* The heap cell of the receiver, the client's state and the log of the calls
  made so far form the `World` that every method transforms.
* A nil pointer dereference ends the run with `Outcome.panicked`.
-/

namespace MetricsServer

/-- A `context.Context` value; only its identity matters to the task. -/
structure Context where
  id : Nat
deriving DecidableEq, Repr

/-- A non-nil Go `error`: either an error made by a collaborator (which may be
an API "not found" status) or an error wrapped with a message by
`errors.Wrap` / `errors.Wrapf`. -/
inductive GoError where
  | base (notFound : Bool) (text : String)
  | withMessage (cause : GoError) (msg : String)
deriving DecidableEq, Repr

/-- Test `apierrors.IsNotFound`, which looks through wrapping. -/
def GoError.IsNotFound : GoError → Bool
  | .base nf _ => nf
  | .withMessage c _ => c.IsNotFound

/-- Function `errors.Wrap`: nil stays nil, otherwise the error becomes the
cause of a new error carrying the message. -/
def Wrap (err : Option GoError) (message : String) : Option GoError :=
  match err with
  | none => none
  | some e => some (.withMessage e message)

/-- Function `errors.Wrapf`, applied to the already formatted message. -/
def Wrapf (err : Option GoError) (formatted : String) : Option GoError :=
  Wrap err formatted

/-- A cluster object as far as the task can see it: the `ObjectMeta` identity
and the rest of the object, which the task never inspects. -/
structure Object where
  Namespace : String
  Name : String
  content : Nat
deriving DecidableEq, Repr

/-- The `manifests.Config` handed to the task; opaque to it. -/
structure Config where
  id : Nat
deriving DecidableEq, Repr

/-- The methods of `manifests.Factory` that the task calls. -/
inductive FactoryMethod where
  | MetricsServerServiceAccount
  | MetricsServerClusterRole
  | MetricsServerClusterRoleBinding
  | MetricsServerClusterRoleBindingAuthDelegator
  | MetricsServerRoleBindingAuthReader
  | MetricsServerService
  | MetricsServerDeployment
  | MetricsServerServiceMonitor
  | MetricsServerPodDisruptionBudget
  | MetricsServerAPIService
  | PrometheusAdapterPodDisruptionBudget
  | PrometheusAdapterServiceMonitor
  | PrometheusAdapterService
deriving DecidableEq, Repr

/-- What a factory method returns: the Go pair `(object pointer, error)`. -/
abbrev Produced := Option Object × Option GoError

/-- A `manifests.Factory`, seen from the task: the result of each method. -/
abbrev Factory := FactoryMethod → Produced

/-- The methods of `client.Client` that the task calls. -/
inductive ClientMethod where
  | CreateOrUpdateServiceAccount
  | CreateOrUpdateClusterRole
  | CreateOrUpdateClusterRoleBinding
  | CreateOrUpdateRoleBinding
  | CreateOrUpdateService
  | CreateOrUpdateDeployment
  | CreateOrUpdateServiceMonitor
  | CreateOrUpdatePodDisruptionBudget
  | CreateOrUpdateAPIService
  | DeletePodDisruptionBudget
  | DeleteServiceMonitor
  | DeleteService
  | DeleteDeployment
deriving DecidableEq, Repr

/-- A `client.Client` over a cluster state `σ`: every method takes the
context and the object pointer (nil included) and returns an `error`, changing
the cluster.  What a method does with its arguments is the client's own. -/
structure Client (σ : Type) where
  call : ClientMethod → Context → Option Object → σ → Option GoError × σ

/-- One call made to a collaborator, with what it returned. -/
inductive Event where
  | factory (m : FactoryMethod) (res : Produced)
  | client (m : ClientMethod) (ctx : Context) (obj : Option Object) (res : Option GoError)
deriving DecidableEq, Repr

/-- The struct `MetricsServerTask`; the field `namespace` is written `namespace_`,
the word being reserved. -/
structure MetricsServerTask (σ : Type) where
  client : Client σ
  enabled : Bool
  ctx : Context
  factory : Factory
  config : Config
  namespace_ : String

/-- Function `NewMetricsServerTask`. -/
def NewMetricsServerTask {σ : Type} (ctx : Context) (namespace_ : String) (client : Client σ)
    (metricsServerEnabled : Bool) (factory : Factory) (config : Config) : MetricsServerTask σ :=
  { client := client
    enabled := metricsServerEnabled
    factory := factory
    config := config
    namespace_ := namespace_
    ctx := ctx }

/-- The struct `PrometheusAdapterTask` of the sibling task. -/
structure PrometheusAdapterTask (σ : Type) where
  client : Client σ
  enabled : Bool
  ctx : Context
  factory : Factory
  config : Config
  namespace_ : String

/-- Modelled from the spec: the constructor `NewPrometheusAdapterTask` lives in
another file of the package.  The spec describes the sibling as a task of the
same shape that shares this task's client, factory and namespace and differs in
the enabled flag; the constructor stores its arguments. -/
def NewPrometheusAdapterTask {σ : Type} (ctx : Context) (namespace_ : String) (client : Client σ)
    (enabled : Bool) (factory : Factory) (config : Config) : PrometheusAdapterTask σ :=
  { client := client
    enabled := enabled
    factory := factory
    config := config
    namespace_ := namespace_
    ctx := ctx }

/-- How a call of `Run` ends: it returns an `error` (nil on success) or the
goroutine panics. -/
inductive Outcome where
  | returned (err : Option GoError)
  | panicked
deriving DecidableEq, Repr

/-- The state a method of the task acts on: the receiver's struct, the
cluster behind the client and the log of collaborator calls made so far. -/
structure World (σ : Type) where
  self : MetricsServerTask σ
  cluster : σ
  trace : List Event

/-- The world before `Run`: nothing has been called yet. -/
def World.init {σ : Type} (t : MetricsServerTask σ) (s : σ) : World σ :=
  { self := t, cluster := s, trace := [] }

/-- Call a factory method and log it. -/
def factoryCall {σ : Type} (f : Factory) (m : FactoryMethod) (w : World σ) :
    Produced × World σ :=
  (f m, { w with trace := w.trace ++ [Event.factory m (f m)] })

/-- Call a client method on the current cluster and log it. -/
def clientCall {σ : Type} (c : Client σ) (m : ClientMethod) (ctx : Context)
    (obj : Option Object) (w : World σ) : Option GoError × World σ :=
  ((c.call m ctx obj w.cluster).1,
   { w with cluster := (c.call m ctx obj w.cluster).2
            trace := w.trace ++ [Event.client m ctx obj (c.call m ctx obj w.cluster).1] })

/-- Method `removePrometheusAdapterResources`. -/
def removePrometheusAdapterResources {σ : Type} (ctx : Context) (w0 : World σ) :
    Outcome × World σ :=
  let pa := NewPrometheusAdapterTask ctx w0.self.namespace_ w0.self.client false
    w0.self.factory w0.self.config
  let d : Option Object :=
    some { Name := "prometheus-adapter", Namespace := w0.self.namespace_, content := 0 }
  -- PodDisruptionBudget
  match factoryCall pa.factory .PrometheusAdapterPodDisruptionBudget w0 with
  | ((pdb, err), w) =>
  if err ≠ none then
    (.returned (Wrap err "initializing PrometheusAdapter PodDisruptionBudget failed"), w)
  else
  match (if pdb ≠ none then clientCall pa.client .DeletePodDisruptionBudget ctx pdb w
         else (none, w)) with
  | (err, w) =>
  if err ≠ none then
    (.returned (Wrap err "deleting PrometheusAdapter PodDisruptionBudget failed"), w)
  else
  -- ServiceMonitor
  match factoryCall pa.factory .PrometheusAdapterServiceMonitor w with
  | ((sm, err), w) =>
  if err ≠ none then
    (.returned (Wrap err "initializing PrometheusAdapter ServiceMonitors failed"), w)
  else
  match clientCall pa.client .DeleteServiceMonitor ctx sm w with
  | (err, w) =>
  if err ≠ none then
    -- the arguments `sm.Namespace`, `sm.Name` are evaluated first: nil panics
    match sm with
    | none => (.panicked, w)
    | some sm =>
      (.returned (Wrapf err ("deleting " ++ sm.Namespace ++ "/" ++ sm.Name
        ++ " ServiceMonitor failed")), w)
  else
  -- Service
  match factoryCall pa.factory .PrometheusAdapterService w with
  | ((s, err), w) =>
  if err ≠ none then
    (.returned (Wrap err "initializing PrometheusAdapter Service failed"), w)
  else
  match clientCall pa.client .DeleteService ctx s w with
  | (err, w) =>
  if err ≠ none then
    (.returned (Wrap err "deleting PrometheusAdapter Service failed"), w)
  else
  -- Deployment
  match clientCall pa.client .DeleteDeployment ctx d w with
  | (err, w) =>
  if err ≠ none then
    (.returned (Wrap err "deleting PrometheusAdapter Deployment failed"), w)
  else
  (.returned none, w)

/-- Method `create`. -/
def create {σ : Type} (ctx : Context) (w : World σ) : Outcome × World σ :=
  -- ServiceAccount
  match factoryCall w.self.factory .MetricsServerServiceAccount w with
  | ((sa, err), w) =>
  if err ≠ none then
    (.returned (Wrap err "initializing MetricsServer ServiceAccount failed"), w)
  else
  match clientCall w.self.client .CreateOrUpdateServiceAccount ctx sa w with
  | (err, w) =>
  if err ≠ none then
    (.returned (Wrap err "reconciling MetricsServer ServiceAccount failed"), w)
  else
  -- ClusterRole
  match factoryCall w.self.factory .MetricsServerClusterRole w with
  | ((cr, err), w) =>
  if err ≠ none then
    (.returned (Wrap err "initializing metrics-server ClusterRolefailed"), w)
  else
  match clientCall w.self.client .CreateOrUpdateClusterRole ctx cr w with
  | (err, w) =>
  if err ≠ none then
    (.returned (Wrap err "reconciling metrics-server ClusterRole failed"), w)
  else
  -- ClusterRoleBinding
  match factoryCall w.self.factory .MetricsServerClusterRoleBinding w with
  | ((crb, err), w) =>
  if err ≠ none then
    (.returned (Wrap err "initializing MetricsServer ClusterRoleBinding failed"), w)
  else
  match clientCall w.self.client .CreateOrUpdateClusterRoleBinding ctx crb w with
  | (err, w) =>
  if err ≠ none then
    (.returned (Wrap err "reconciling MetricsServer ClusterRoleBinding failed"), w)
  else
  -- ClusterRoleBinding, auth-delegator
  match factoryCall w.self.factory .MetricsServerClusterRoleBindingAuthDelegator w with
  | ((crb, err), w) =>
  if err ≠ none then
    (.returned (Wrap err "initializing metrics-server:system:auth-delegator ClusterRoleBinding failed"), w)
  else
  match clientCall w.self.client .CreateOrUpdateClusterRoleBinding ctx crb w with
  | (err, w) =>
  if err ≠ none then
    (.returned (Wrap err "reconciling metrics-server:system:auth-delegator ClusterRoleBinding failed"), w)
  else
  -- RoleBinding, auth-reader
  match factoryCall w.self.factory .MetricsServerRoleBindingAuthReader w with
  | ((rb, err), w) =>
  if err ≠ none then
    (.returned (Wrap err "initializing  metrics-server-auth-reader RoleBinding failed"), w)
  else
  match clientCall w.self.client .CreateOrUpdateRoleBinding ctx rb w with
  | (err, w) =>
  if err ≠ none then
    (.returned (Wrap err "reconciling  metrics-server-auth-reader RoleBinding failed"), w)
  else
  -- Service
  match factoryCall w.self.factory .MetricsServerService w with
  | ((s, err), w) =>
  if err ≠ none then
    (.returned (Wrap err "initializing MetricsServer Service failed"), w)
  else
  match clientCall w.self.client .CreateOrUpdateService ctx s w with
  | (err, w) =>
  if err ≠ none then
    (.returned (Wrap err "reconciling MetricsServer Service failed"), w)
  else
  -- Deployment
  match factoryCall w.self.factory .MetricsServerDeployment w with
  | ((dep, err), w) =>
  if err ≠ none then
    (.returned (Wrap err "initializing MetricsServer Deployment failed"), w)
  else
  match clientCall w.self.client .CreateOrUpdateDeployment ctx dep w with
  | (err, w) =>
  if err ≠ none then
    (.returned (Wrap err "reconciling MetricsServer Deployment failed"), w)
  else
  -- ServiceMonitor
  match factoryCall w.self.factory .MetricsServerServiceMonitor w with
  | ((sm, err), w) =>
  if err ≠ none then
    (.returned (Wrap err "initializing MetricsServer ServiceMonitors failed"), w)
  else
  match clientCall w.self.client .CreateOrUpdateServiceMonitor ctx sm w with
  | (err, w) =>
  if err ≠ none then
    -- the arguments `sm.Namespace`, `sm.Name` are evaluated first: nil panics
    match sm with
    | none => (.panicked, w)
    | some sm =>
      (.returned (Wrapf err ("reconciling " ++ sm.Namespace ++ "/" ++ sm.Name
        ++ " ServiceMonitor failed")), w)
  else
  -- PodDisruptionBudget
  match factoryCall w.self.factory .MetricsServerPodDisruptionBudget w with
  | ((pdb, err), w) =>
  if err ≠ none then
    (.returned (Wrap err "initializing MetricsServer PodDisruptionBudget failed"), w)
  else
  match (if pdb ≠ none then clientCall w.self.client .CreateOrUpdatePodDisruptionBudget ctx pdb w
         else (none, w)) with
  | (err, w) =>
  if err ≠ none then
    (.returned (Wrap err "reconciling MetricsServer PodDisruptionBudget failed"), w)
  else
  -- APIService
  match factoryCall w.self.factory .MetricsServerAPIService w with
  | ((api, err), w) =>
  if err ≠ none then
    (.returned (Wrap err "initializing MetricsServer APIService failed"), w)
  else
  match clientCall w.self.client .CreateOrUpdateAPIService ctx api w with
  | (err, w) =>
  if err ≠ none then
    (.returned (Wrap err "reconciling MetricsServer APIService failed"), w)
  else
  removePrometheusAdapterResources ctx w

/-- Method `Run`. -/
def Run {σ : Type} (ctx : Context) (w : World σ) : Outcome × World σ :=
  if w.self.enabled then
    create ctx w
  else
    (.returned none, w)

/-! ## The declared plan

The spec describes `create` and the cleanup as a loop over a fixed, ordered list
of kinds: produce the object, skip a nil optional object, apply it, stop at the
first error.  `runSteps` is that loop, written from the spec's words; the
theorems below show that the source's unrolled blocks compute exactly it. -/

/-- The classes of cluster object the task manages. -/
inductive ResourceKind where
  | ServiceAccount
  | ClusterRole
  | ClusterRoleBinding
  | RoleBinding
  | Service
  | Deployment
  | ServiceMonitor
  | PodDisruptionBudget
  | APIService
deriving DecidableEq, Repr

/-- The kind a client method acts on, as its Go name says. -/
def ClientMethod.kind : ClientMethod → ResourceKind
  | .CreateOrUpdateServiceAccount => .ServiceAccount
  | .CreateOrUpdateClusterRole => .ClusterRole
  | .CreateOrUpdateClusterRoleBinding => .ClusterRoleBinding
  | .CreateOrUpdateRoleBinding => .RoleBinding
  | .CreateOrUpdateService => .Service
  | .CreateOrUpdateDeployment => .Deployment
  | .CreateOrUpdateServiceMonitor => .ServiceMonitor
  | .CreateOrUpdatePodDisruptionBudget => .PodDisruptionBudget
  | .CreateOrUpdateAPIService => .APIService
  | .DeletePodDisruptionBudget => .PodDisruptionBudget
  | .DeleteServiceMonitor => .ServiceMonitor
  | .DeleteService => .Service
  | .DeleteDeployment => .Deployment

/-- Whether a client method is one of the `Delete...` methods. -/
def ClientMethod.isDelete : ClientMethod → Bool
  | .DeletePodDisruptionBudget => true
  | .DeleteServiceMonitor => true
  | .DeleteService => true
  | .DeleteDeployment => true
  | _ => false

/-- Where the object of a step comes from: a factory method, whose failure is
reported with `initMsg`, or a literal built in place. -/
inductive ObjectSource where
  | factory (m : FactoryMethod) (initMsg : String)
  | literal (o : Object)
deriving DecidableEq, Repr

/-- How the failure of a step's client call is reported: with a fixed text,
or with a text formatted from the object's namespace and name. -/
inductive ApplyMessage where
  | fixed (text : String)
  | identity (verb : String)
deriving DecidableEq, Repr

/-- The text an `ApplyMessage` produces for an object; formatting the identity
of a nil object is not possible. -/
def ApplyMessage.render : ApplyMessage → Option Object → Option String
  | .fixed text, _ => some text
  | .identity verb, some sm =>
    some (verb ++ sm.Namespace ++ "/" ++ sm.Name ++ " ServiceMonitor failed")
  | .identity _, none => none

/-- What `Run` does when the client call of a step returned `err`: it returns
the error wrapped with the rendered text, or panics when the text cannot be
rendered. -/
def ApplyMessage.outcome (a : ApplyMessage) (err : Option GoError) (o : Option Object) :
    Outcome :=
  match a.render o with
  | some text => .returned (Wrap err text)
  | none => .panicked

/-- One step of the plan. -/
structure Step where
  source : ObjectSource
  method : ClientMethod
  optional : Bool
  onError : ApplyMessage
deriving DecidableEq, Repr

/-- The apply half of a step: skip a nil optional object, otherwise call the
client; `some` is the outcome that ends the run, `none` lets it continue. -/
def applyStep {σ : Type} (t : MetricsServerTask σ) (ctx : Context) (sd : Step)
    (o : Option Object) (w : World σ) : Option Outcome × World σ :=
  if sd.optional = true ∧ o = none then (none, w)
  else
    match clientCall t.client sd.method ctx o w with
    | (err, w) =>
      if err ≠ none then (some (sd.onError.outcome err o), w) else (none, w)

/-- One step: produce, then apply. -/
def runStep {σ : Type} (t : MetricsServerTask σ) (ctx : Context) (sd : Step)
    (w : World σ) : Option Outcome × World σ :=
  match sd.source with
  | .literal o => applyStep t ctx sd (some o) w
  | .factory m initMsg =>
    match factoryCall t.factory m w with
    | ((o, err), w) =>
      if err ≠ none then (some (.returned (Wrap err initMsg)), w)
      else applyStep t ctx sd o w

/-- The loop over the plan: the first step that ends the run decides the
outcome, and a plan run to its end returns nil. -/
def runSteps {σ : Type} (t : MetricsServerTask σ) (ctx : Context) :
    List Step → World σ → Outcome × World σ
  | [], w => (.returned none, w)
  | sd :: rest, w =>
    match runStep t ctx sd w with
    | (some out, w) => (out, w)
    | (none, w) => runSteps t ctx rest w

/-- The apply sequence of `create`, in the order of the source. -/
def createSteps : List Step :=
  [ { source := .factory .MetricsServerServiceAccount
        "initializing MetricsServer ServiceAccount failed"
      method := .CreateOrUpdateServiceAccount, optional := false
      onError := .fixed "reconciling MetricsServer ServiceAccount failed" },
    { source := .factory .MetricsServerClusterRole
        "initializing metrics-server ClusterRolefailed"
      method := .CreateOrUpdateClusterRole, optional := false
      onError := .fixed "reconciling metrics-server ClusterRole failed" },
    { source := .factory .MetricsServerClusterRoleBinding
        "initializing MetricsServer ClusterRoleBinding failed"
      method := .CreateOrUpdateClusterRoleBinding, optional := false
      onError := .fixed "reconciling MetricsServer ClusterRoleBinding failed" },
    { source := .factory .MetricsServerClusterRoleBindingAuthDelegator
        "initializing metrics-server:system:auth-delegator ClusterRoleBinding failed"
      method := .CreateOrUpdateClusterRoleBinding, optional := false
      onError := .fixed
        "reconciling metrics-server:system:auth-delegator ClusterRoleBinding failed" },
    { source := .factory .MetricsServerRoleBindingAuthReader
        "initializing  metrics-server-auth-reader RoleBinding failed"
      method := .CreateOrUpdateRoleBinding, optional := false
      onError := .fixed "reconciling  metrics-server-auth-reader RoleBinding failed" },
    { source := .factory .MetricsServerService
        "initializing MetricsServer Service failed"
      method := .CreateOrUpdateService, optional := false
      onError := .fixed "reconciling MetricsServer Service failed" },
    { source := .factory .MetricsServerDeployment
        "initializing MetricsServer Deployment failed"
      method := .CreateOrUpdateDeployment, optional := false
      onError := .fixed "reconciling MetricsServer Deployment failed" },
    { source := .factory .MetricsServerServiceMonitor
        "initializing MetricsServer ServiceMonitors failed"
      method := .CreateOrUpdateServiceMonitor, optional := false
      onError := .identity "reconciling " },
    { source := .factory .MetricsServerPodDisruptionBudget
        "initializing MetricsServer PodDisruptionBudget failed"
      method := .CreateOrUpdatePodDisruptionBudget, optional := true
      onError := .fixed "reconciling MetricsServer PodDisruptionBudget failed" },
    { source := .factory .MetricsServerAPIService
        "initializing MetricsServer APIService failed"
      method := .CreateOrUpdateAPIService, optional := false
      onError := .fixed "reconciling MetricsServer APIService failed" } ]

/-- The residual deployment of the retired component, named by a literal. -/
def residualDeployment (namespace_ : String) : Object :=
  { Name := "prometheus-adapter", Namespace := namespace_, content := 0 }

/-- The cleanup sequence of `removePrometheusAdapterResources`, in the order of
the source. -/
def cleanupSteps (namespace_ : String) : List Step :=
  [ { source := .factory .PrometheusAdapterPodDisruptionBudget
        "initializing PrometheusAdapter PodDisruptionBudget failed"
      method := .DeletePodDisruptionBudget, optional := true
      onError := .fixed "deleting PrometheusAdapter PodDisruptionBudget failed" },
    { source := .factory .PrometheusAdapterServiceMonitor
        "initializing PrometheusAdapter ServiceMonitors failed"
      method := .DeleteServiceMonitor, optional := false
      onError := .identity "deleting " },
    { source := .factory .PrometheusAdapterService
        "initializing PrometheusAdapter Service failed"
      method := .DeleteService, optional := false
      onError := .fixed "deleting PrometheusAdapter Service failed" },
    { source := .literal (residualDeployment namespace_)
      method := .DeleteDeployment, optional := false
      onError := .fixed "deleting PrometheusAdapter Deployment failed" } ]

/-- The whole plan of an enabled `Run`. -/
def plan (namespace_ : String) : List Step :=
  createSteps ++ cleanupSteps namespace_

/-! ## Reading the log -/

/-- Whether the call logged by an event returned an error. -/
def Event.failed : Event → Bool
  | .factory _ res => res.2.isSome
  | .client _ _ _ res => res.isSome

/-- The client method of an event, if it is a client call. -/
def Event.clientMethod : Event → Option ClientMethod
  | .factory _ _ => none
  | .client m _ _ _ => some m

/-- A client call without its result: method, context and object. -/
abbrev Call := ClientMethod × Context × Option Object

/-- The client calls of a log, in order. -/
def clientCalls : List Event → List Call
  | [] => []
  | .factory _ _ :: evs => clientCalls evs
  | .client m ctx obj _ :: evs => (m, ctx, obj) :: clientCalls evs

/-- What producing the object of a step yields. -/
def Step.produced (f : Factory) (sd : Step) : Produced :=
  match sd.source with
  | .factory m _ => f m
  | .literal o => (some o, none)

/-- The events logged by producing the object of a step. -/
def Step.produceEvents (f : Factory) (sd : Step) : List Event :=
  match sd.source with
  | .factory m _ => [.factory m (f m)]
  | .literal _ => []

/-- The log and outcome that running a plan can leave, the factory being
fixed and the client free to answer each call as it likes: the steps pass one
by one, each logging its factory call and (unless the object is a nil optional
one) its successful client call, until the plan ends or a step stops the run
at a failing factory call or a failing client call. -/
inductive Ran (f : Factory) (ctx : Context) : List Step → List Event → Outcome → Prop
  | done : Ran f ctx [] [] (.returned none)
  | produceFailed (sd : Step) (rest : List Step) (m : FactoryMethod) (msg : String)
      (hsrc : sd.source = .factory m msg) (hne : (f m).2 ≠ none) :
      Ran f ctx (sd :: rest) [.factory m (f m)] (.returned (Wrap (f m).2 msg))
  | skipped (sd : Step) (rest : List Step) (evs : List Event) (out : Outcome)
      (hp : (sd.produced f).2 = none)
      (hskip : sd.optional = true ∧ (sd.produced f).1 = none)
      (h : Ran f ctx rest evs out) :
      Ran f ctx (sd :: rest) (sd.produceEvents f ++ evs) out
  | applyFailed (sd : Step) (rest : List Step) (res : Option GoError)
      (hp : (sd.produced f).2 = none)
      (hcall : ¬ (sd.optional = true ∧ (sd.produced f).1 = none))
      (hres : res ≠ none) :
      Ran f ctx (sd :: rest)
        (sd.produceEvents f ++ [.client sd.method ctx (sd.produced f).1 res])
        (sd.onError.outcome res (sd.produced f).1)
  | applied (sd : Step) (rest : List Step) (evs : List Event) (out : Outcome)
      (hp : (sd.produced f).2 = none)
      (hcall : ¬ (sd.optional = true ∧ (sd.produced f).1 = none))
      (h : Ran f ctx rest evs out) :
      Ran f ctx (sd :: rest)
        (sd.produceEvents f ++ .client sd.method ctx (sd.produced f).1 none :: evs) out

/-- The events a step logs when it passes: its factory call and, unless the
object is a nil optional one, its successful client call. -/
def Step.passEvents (f : Factory) (ctx : Context) (sd : Step) : List Event :=
  sd.produceEvents f ++
    (if sd.optional = true ∧ (sd.produced f).1 = none then []
     else [.client sd.method ctx (sd.produced f).1 none])

/-- The log of a run of the plan in which no call fails. -/
def plannedEvents (f : Factory) (ctx : Context) : List Step → List Event
  | [] => []
  | sd :: rest => sd.passEvents f ctx ++ plannedEvents f ctx rest

/-- An event with the result of a client call blanked: what was called, not
what the client answered. -/
def Event.forget : Event → Event
  | .factory m res => .factory m res
  | .client m ctx obj _ => .client m ctx obj none

/-- The client calls of the success path as the source makes them: ten
`CreateOrUpdate...` calls, `CreateOrUpdateClusterRoleBinding` twice, then the
four `Delete...` calls. -/
def successCalls (f : Factory) (ctx : Context) (namespace_ : String) : List Call :=
  [ (.CreateOrUpdateServiceAccount, ctx, (f .MetricsServerServiceAccount).1),
    (.CreateOrUpdateClusterRole, ctx, (f .MetricsServerClusterRole).1),
    (.CreateOrUpdateClusterRoleBinding, ctx, (f .MetricsServerClusterRoleBinding).1),
    (.CreateOrUpdateClusterRoleBinding, ctx,
      (f .MetricsServerClusterRoleBindingAuthDelegator).1),
    (.CreateOrUpdateRoleBinding, ctx, (f .MetricsServerRoleBindingAuthReader).1),
    (.CreateOrUpdateService, ctx, (f .MetricsServerService).1),
    (.CreateOrUpdateDeployment, ctx, (f .MetricsServerDeployment).1),
    (.CreateOrUpdateServiceMonitor, ctx, (f .MetricsServerServiceMonitor).1),
    (.CreateOrUpdatePodDisruptionBudget, ctx, (f .MetricsServerPodDisruptionBudget).1),
    (.CreateOrUpdateAPIService, ctx, (f .MetricsServerAPIService).1),
    (.DeletePodDisruptionBudget, ctx, (f .PrometheusAdapterPodDisruptionBudget).1),
    (.DeleteServiceMonitor, ctx, (f .PrometheusAdapterServiceMonitor).1),
    (.DeleteService, ctx, (f .PrometheusAdapterService).1),
    (.DeleteDeployment, ctx, some (residualDeployment namespace_)) ]

/-- The order of client methods on the success path as the spec words it:
every kind once, nine `CreateOrUpdate...` calls and four `Delete...` calls. -/
def specOrder : List ClientMethod :=
  [ .CreateOrUpdateServiceAccount, .CreateOrUpdateClusterRole,
    .CreateOrUpdateClusterRoleBinding, .CreateOrUpdateRoleBinding,
    .CreateOrUpdateService, .CreateOrUpdateDeployment, .CreateOrUpdateServiceMonitor,
    .CreateOrUpdatePodDisruptionBudget, .CreateOrUpdateAPIService,
    .DeletePodDisruptionBudget, .DeleteServiceMonitor, .DeleteService, .DeleteDeployment ]

/-- Whether a call is one the task leaves out: a `PodDisruptionBudget` call on
a nil object. -/
def Call.skipped (c : Call) : Bool :=
  c.1.kind = .PodDisruptionBudget && c.2.2.isNone

/-! ## Error messages -/

/-- The phase of a step in which a failure is reported. -/
inductive Phase where
  | initializing
  | reconciling
  | deleting
deriving DecidableEq, Repr

/-- The message a step attaches to a failure in a phase: `initializing` for the
factory call, `reconciling` for a `CreateOrUpdate...` call, `deleting` for a
`Delete...` call; `none` where the step has no such phase or the text cannot be
formatted. -/
def Step.message (sd : Step) (ph : Phase) (o : Option Object) : Option String :=
  match ph with
  | .initializing =>
    match sd.source with
    | .factory _ initMsg => some initMsg
    | .literal _ => none
  | .reconciling => if sd.method.isDelete then none else sd.onError.render o
  | .deleting => if sd.method.isDelete then sd.onError.render o else none

/-- The identity of an object in the cluster: kind, namespace and name. -/
abbrev ObjectKey := ResourceKind × String × String

/-- The applied state of a cluster. -/
abbrev Store := ObjectKey → Option Object

/-- The key of an object of a kind. -/
def Object.key (k : ResourceKind) (o : Object) : ObjectKey :=
  (k, o.Namespace, o.Name)

/-- Modelled from the spec: the client of the re-run property, which records
the applied state.  `CreateOrUpdate...` inserts or overwrites the object under
its key, `Delete...` removes the key and succeeds when it is absent; no call
fails, and a nil object, which has no key, changes nothing. -/
def storeClient : Client Store :=
  { call := fun m _ obj s =>
      match obj with
      | none => (none, s)
      | some o =>
        (none, Function.update s (o.key m.kind) (if m.isDelete then none else some o)) }

/-- What an event does to a store behind `storeClient`. -/
def Event.store (e : Event) (s : Store) : Store :=
  match e with
  | .client m _ (some o) _ =>
    Function.update s (o.key m.kind) (if m.isDelete then none else some o)
  | _ => s

/-- What a log does to a store behind `storeClient`. -/
def storeAfter : List Event → Store → Store
  | [], s => s
  | e :: evs, s => storeAfter evs (e.store s)

/-- The last write of a log to a key, if the log writes to it. -/
def lastWrite (k : ObjectKey) : List Event → Option (Option Object)
  | [] => none
  | e :: evs =>
    match lastWrite k evs with
    | some v => some v
    | none =>
      match e with
      | .client m _ (some o) _ =>
        if o.key m.kind = k then some (if m.isDelete then none else some o) else none
      | _ => none

/-- The message with which the failure of a step's factory call is reported;
a literal object has no factory call and no such message. -/
def Step.initMsg (sd : Step) : String :=
  match sd.source with
  | .factory _ initMsg => initMsg
  | .literal _ => ""

/-- The log and outcome of a plan run against a client no call of which fails:
the steps pass until a factory call fails. -/
def quietRun (f : Factory) (ctx : Context) : List Step → List Event × Outcome
  | [] => ([], .returned none)
  | sd :: rest =>
    if (sd.produced f).2 = none then
      (sd.passEvents f ctx ++ (quietRun f ctx rest).1, (quietRun f ctx rest).2)
    else (sd.produceEvents f, .returned (Wrap (sd.produced f).2 sd.initMsg))

/-! ## Sample collaborators -/

/-- The name given to the object of a factory method in the samples. -/
def sampleName : FactoryMethod → String
  | .MetricsServerClusterRoleBinding => "system:metrics-server"
  | .MetricsServerClusterRoleBindingAuthDelegator => "metrics-server:system:auth-delegator"
  | .MetricsServerRoleBindingAuthReader => "metrics-server-auth-reader"
  | .PrometheusAdapterPodDisruptionBudget => "prometheus-adapter"
  | .PrometheusAdapterServiceMonitor => "prometheus-adapter"
  | .PrometheusAdapterService => "prometheus-adapter"
  | _ => "metrics-server"

/-- A factory every method of which produces an object. -/
def okFactory : Factory :=
  fun m => (some { Namespace := "openshift-monitoring", Name := sampleName m, content := 1 },
    none)

/-- A factory for a cluster where no `PodDisruptionBudget` is configured. -/
def noBudgetFactory : Factory :=
  fun m =>
    if m = .MetricsServerPodDisruptionBudget ∨ m = .PrometheusAdapterPodDisruptionBudget
    then (none, none) else okFactory m

/-- The factory `okFactory` with one method failing. -/
def failingFactory (bad : FactoryMethod) (e : GoError) : Factory :=
  fun m => if m = bad then (none, some e) else okFactory m

/-- A client without state whose calls all succeed. -/
def okClient : Client Unit :=
  { call := fun _ _ _ s => (none, s) }

/-- A client without state one method of which fails. -/
def failingClient (bad : ClientMethod) (e : GoError) : Client Unit :=
  { call := fun m _ _ s => (if m = bad then some e else none, s) }

/-- The context handed to the constructor in the samples. -/
def storedCtx : Context := { id := 0 }

/-- The context handed to `Run` in the samples. -/
def runCtx : Context := { id := 7 }

/-- An enabled task over the given collaborators. -/
def sampleTask {σ : Type} (f : Factory) (c : Client σ) : MetricsServerTask σ :=
  NewMetricsServerTask storedCtx "openshift-monitoring" c true f { id := 0 }

/-- An API "not found" error. -/
def notFoundError : GoError := .base true "not found"

/-- An error that is not "not found". -/
def otherError : GoError := .base false "connection refused"

/-- How a step stops a run: its factory call fails and the error is returned
wrapped with the step's `initializing` message, or its client call fails and
the run ends as the step's `onError` says. -/
def Stops (f : Factory) (ctx : Context) (sd : Step) (e : Event) (out : Outcome) : Prop :=
  (∃ m msg, sd.source = .factory m msg ∧ (f m).2 ≠ none ∧ e = .factory m (f m) ∧
    out = .returned (Wrap (f m).2 msg)) ∨
  (∃ res, res ≠ none ∧ (sd.produced f).2 = none ∧
    ¬ (sd.optional = true ∧ (sd.produced f).1 = none) ∧
    e = .client sd.method ctx (sd.produced f).1 res ∧
    out = sd.onError.outcome res (sd.produced f).1)

/-! ## The source computes the plan -/

theorem runSteps_stop {σ : Type} (t : MetricsServerTask σ) (ctx : Context) (sd : Step)
    (rest : List Step) (w w' : World σ) (out : Outcome)
    (h : runStep t ctx sd w = (some out, w')) : runSteps t ctx (sd :: rest) w = (out, w') := by
  simp only [runSteps, h]

theorem runSteps_next {σ : Type} (t : MetricsServerTask σ) (ctx : Context) (sd : Step)
    (rest : List Step) (w w' : World σ)
    (h : runStep t ctx sd w = (none, w')) :
    runSteps t ctx (sd :: rest) w = runSteps t ctx rest w' := by
  simp only [runSteps, h]

theorem factoryCall_self {σ : Type} (f : Factory) (m : FactoryMethod) (w w' : World σ)
    (r : Produced) (h : factoryCall f m w = (r, w')) : w'.self = w.self := by
  cases h; rfl

theorem clientCall_self {σ : Type} (c : Client σ) (m : ClientMethod) (ctx : Context)
    (o : Option Object) (w w' : World σ) (r : Option GoError)
    (h : clientCall c m ctx o w = (r, w')) : w'.self = w.self := by
  cases h; rfl

theorem runStep_produceFailed {σ : Type} (t : MetricsServerTask σ) (ctx : Context)
    (m : FactoryMethod) (A : String) (cm : ClientMethod) (opt : Bool) (msg : ApplyMessage)
    (w w1 : World σ) (o : Option Object) (e : GoError)
    (hf : factoryCall t.factory m w = ((o, some e), w1)) :
    runStep t ctx ⟨.factory m A, cm, opt, msg⟩ w = (some (.returned (Wrap (some e) A)), w1) := by
  simp [runStep, hf]

theorem runStep_applyFailed {σ : Type} (t : MetricsServerTask σ) (ctx : Context)
    (m : FactoryMethod) (A : String) (cm : ClientMethod) (opt : Bool) (msg : ApplyMessage)
    (w w1 w2 : World σ) (o : Option Object) (e : GoError)
    (hf : factoryCall t.factory m w = ((o, none), w1))
    (hc : clientCall t.client cm ctx o w1 = (some e, w2))
    (hopt : opt = true → o ≠ none) :
    runStep t ctx ⟨.factory m A, cm, opt, msg⟩ w = (some (msg.outcome (some e) o), w2) := by
  have : ¬ (opt = true ∧ o = none) := fun h => hopt h.1 h.2
  simp [runStep, applyStep, hf, hc, this]

theorem runStep_applied {σ : Type} (t : MetricsServerTask σ) (ctx : Context)
    (m : FactoryMethod) (A : String) (cm : ClientMethod) (opt : Bool) (msg : ApplyMessage)
    (w w1 w2 : World σ) (o : Option Object)
    (hf : factoryCall t.factory m w = ((o, none), w1))
    (hc : clientCall t.client cm ctx o w1 = (none, w2))
    (hopt : opt = true → o ≠ none) :
    runStep t ctx ⟨.factory m A, cm, opt, msg⟩ w = (none, w2) := by
  have : ¬ (opt = true ∧ o = none) := fun h => hopt h.1 h.2
  simp [runStep, applyStep, hf, hc, this]

theorem optional_self {σ : Type} (c : Client σ) (m : ClientMethod) (ctx : Context)
    (o : Option Object) (w w' : World σ) (r : Option GoError)
    (h : (if o ≠ none then clientCall c m ctx o w else (none, w)) = (r, w')) :
    w'.self = w.self := by
  split at h
  · exact clientCall_self _ _ _ _ _ _ _ h
  · cases h; rfl

theorem runStep_optionalFailed {σ : Type} (t : MetricsServerTask σ) (ctx : Context)
    (m : FactoryMethod) (A : String) (cm : ClientMethod) (msg : ApplyMessage)
    (w w1 w2 : World σ) (o : Option Object) (e : GoError)
    (hf : factoryCall t.factory m w = ((o, none), w1))
    (hc : (if o ≠ none then clientCall t.client cm ctx o w1 else (none, w1)) = (some e, w2)) :
    runStep t ctx ⟨.factory m A, cm, true, msg⟩ w = (some (msg.outcome (some e) o), w2) := by
  cases o with
  | none => simp at hc
  | some pdb =>
    rw [if_pos (by simp)] at hc
    simp [runStep, applyStep, hf, hc]

theorem runStep_optionalPassed {σ : Type} (t : MetricsServerTask σ) (ctx : Context)
    (m : FactoryMethod) (A : String) (cm : ClientMethod) (msg : ApplyMessage)
    (w w1 w2 : World σ) (o : Option Object)
    (hf : factoryCall t.factory m w = ((o, none), w1))
    (hc : (if o ≠ none then clientCall t.client cm ctx o w1 else (none, w1)) = (none, w2)) :
    runStep t ctx ⟨.factory m A, cm, true, msg⟩ w = (none, w2) := by
  cases o with
  | none =>
    rw [if_neg (by simp)] at hc
    cases hc
    simp [runStep, applyStep, hf]
  | some pdb =>
    rw [if_pos (by simp)] at hc
    simp [runStep, applyStep, hf, hc]

theorem runStep_literalFailed {σ : Type} (t : MetricsServerTask σ) (ctx : Context)
    (d : Object) (cm : ClientMethod) (msg : ApplyMessage) (w w2 : World σ) (e : GoError)
    (hc : clientCall t.client cm ctx (some d) w = (some e, w2)) :
    runStep t ctx ⟨.literal d, cm, false, msg⟩ w = (some (msg.outcome (some e) (some d)), w2) := by
  simp [runStep, applyStep, hc]

theorem runStep_literalApplied {σ : Type} (t : MetricsServerTask σ) (ctx : Context)
    (d : Object) (cm : ClientMethod) (msg : ApplyMessage) (w w2 : World σ)
    (hc : clientCall t.client cm ctx (some d) w = (none, w2)) :
    runStep t ctx ⟨.literal d, cm, false, msg⟩ w = (none, w2) := by
  simp [runStep, applyStep, hc]

/-- The cleanup method of the source runs the cleanup steps of the plan. -/
theorem remove_eq {σ : Type} (ctx : Context) (w : World σ) (t : MetricsServerTask σ)
    (hs : w.self = t) :
    removePrometheusAdapterResources ctx w = runSteps t ctx (cleanupSteps t.namespace_) w := by
  generalize hr : removePrometheusAdapterResources ctx w = r
  symm
  unfold removePrometheusAdapterResources at hr
  lift_lets at hr
  extract_lets pa d at hr
  have hpf : pa.factory = t.factory := by rw [← hs]; rfl
  have hpc : pa.client = t.client := by rw [← hs]; rfl
  have hd : d = some (residualDeployment t.namespace_) := by rw [← hs]; rfl
  clear_value pa d
  rw [hpf, hpc, hd] at hr
  unfold cleanupSteps
  -- PodDisruptionBudget
  split at hr
  rename_i o err w1 hf
  replace hs := (factoryCall_self _ _ _ _ _ hf).trans hs
  rcases err with _ | e
  swap
  · rw [if_pos (by simp)] at hr
    rw [← hr]
    exact runSteps_stop _ _ _ _ _ _ _ (runStep_produceFailed _ _ _ _ _ _ _ _ _ _ _ hf)
  rw [if_neg (by simp)] at hr
  split at hr
  rename_i err w2 hc
  replace hs := (optional_self _ _ _ _ _ _ _ hc).trans hs
  rcases err with _ | e
  swap
  · rw [if_pos (by simp)] at hr
    rw [← hr]
    exact runSteps_stop _ _ _ _ _ _ _ (runStep_optionalFailed _ _ _ _ _ _ _ _ _ _ _ hf hc)
  rw [if_neg (by simp)] at hr
  rw [runSteps_next _ _ _ _ _ _ (runStep_optionalPassed _ _ _ _ _ _ _ _ _ _ hf hc)]
  -- ServiceMonitor
  split at hr
  rename_i o err w1 hf
  replace hs := (factoryCall_self _ _ _ _ _ hf).trans hs
  rcases err with _ | e
  swap
  · rw [if_pos (by simp)] at hr
    rw [← hr]
    exact runSteps_stop _ _ _ _ _ _ _ (runStep_produceFailed _ _ _ _ _ _ _ _ _ _ _ hf)
  rw [if_neg (by simp)] at hr
  split at hr
  rename_i err w2 hc
  replace hs := (clientCall_self _ _ _ _ _ _ _ hc).trans hs
  rcases err with _ | e
  swap
  · rw [if_pos (by simp)] at hr
    rw [← hr]
    rcases o with _ | sm <;>
      exact runSteps_stop _ _ _ _ _ _ _ (runStep_applyFailed _ _ _ _ _ _ _ _ _ _ _ _ hf hc (by simp))
  rw [if_neg (by simp)] at hr
  rw [runSteps_next _ _ _ _ _ _ (runStep_applied _ _ _ _ _ _ _ _ _ _ _ hf hc (by simp))]
  -- Service
  split at hr
  rename_i o err w1 hf
  replace hs := (factoryCall_self _ _ _ _ _ hf).trans hs
  rcases err with _ | e
  swap
  · rw [if_pos (by simp)] at hr
    rw [← hr]
    exact runSteps_stop _ _ _ _ _ _ _ (runStep_produceFailed _ _ _ _ _ _ _ _ _ _ _ hf)
  rw [if_neg (by simp)] at hr
  split at hr
  rename_i err w2 hc
  replace hs := (clientCall_self _ _ _ _ _ _ _ hc).trans hs
  rcases err with _ | e
  swap
  · rw [if_pos (by simp)] at hr
    rw [← hr]
    exact runSteps_stop _ _ _ _ _ _ _ (runStep_applyFailed _ _ _ _ _ _ _ _ _ _ _ _ hf hc (by simp))
  rw [if_neg (by simp)] at hr
  rw [runSteps_next _ _ _ _ _ _ (runStep_applied _ _ _ _ _ _ _ _ _ _ _ hf hc (by simp))]
  -- Deployment
  split at hr
  rename_i err w2 hc
  rcases err with _ | e
  · rw [if_neg (by simp)] at hr
    rw [runSteps_next _ _ _ _ _ _ (runStep_literalApplied _ _ _ _ _ _ _ hc), ← hr]
    rfl
  · rw [if_pos (by simp)] at hr
    rw [← hr]
    exact runSteps_stop _ _ _ _ _ _ _ (runStep_literalFailed _ _ _ _ _ _ _ _ hc)

/-- The method `create` of the source runs the plan: its ten unrolled blocks
followed by the cleanup method compute the loop over the declared steps. -/
theorem create_eq {σ : Type} (ctx : Context) (w : World σ) :
    create ctx w = runSteps w.self ctx (plan w.self.namespace_) w := by
  generalize ht : w.self = t
  have hs : w.self = t := ht
  clear ht
  unfold plan createSteps
  simp only [List.cons_append, List.nil_append]
  generalize hr : create ctx w = r
  symm
  unfold create at hr
  -- ServiceAccount to Deployment
  iterate 7
    split at hr
    rename_i o err w1 hf
    rw [hs] at hf
    replace hs := (factoryCall_self _ _ _ _ _ hf).trans hs
    rcases err with _ | e
    swap
    · rw [if_pos (by simp)] at hr
      rw [← hr]
      exact runSteps_stop _ _ _ _ _ _ _ (runStep_produceFailed _ _ _ _ _ _ _ _ _ _ _ hf)
    rw [if_neg (by simp)] at hr
    split at hr
    rename_i err w2 hc
    rw [hs] at hc
    replace hs := (clientCall_self _ _ _ _ _ _ _ hc).trans hs
    rcases err with _ | e
    swap
    · rw [if_pos (by simp)] at hr
      rw [← hr]
      exact runSteps_stop _ _ _ _ _ _ _ (runStep_applyFailed _ _ _ _ _ _ _ _ _ _ _ _ hf hc (by simp))
    rw [if_neg (by simp)] at hr
    rw [runSteps_next _ _ _ _ _ _ (runStep_applied _ _ _ _ _ _ _ _ _ _ _ hf hc (by simp))]
  -- ServiceMonitor
  split at hr
  rename_i o err w1 hf
  rw [hs] at hf
  replace hs := (factoryCall_self _ _ _ _ _ hf).trans hs
  rcases err with _ | e
  swap
  · rw [if_pos (by simp)] at hr
    rw [← hr]
    exact runSteps_stop _ _ _ _ _ _ _ (runStep_produceFailed _ _ _ _ _ _ _ _ _ _ _ hf)
  rw [if_neg (by simp)] at hr
  split at hr
  rename_i err w2 hc
  rw [hs] at hc
  replace hs := (clientCall_self _ _ _ _ _ _ _ hc).trans hs
  rcases err with _ | e
  swap
  · rw [if_pos (by simp)] at hr
    rw [← hr]
    rcases o with _ | sm <;>
      exact runSteps_stop _ _ _ _ _ _ _ (runStep_applyFailed _ _ _ _ _ _ _ _ _ _ _ _ hf hc (by simp))
  rw [if_neg (by simp)] at hr
  rw [runSteps_next _ _ _ _ _ _ (runStep_applied _ _ _ _ _ _ _ _ _ _ _ hf hc (by simp))]
  -- PodDisruptionBudget
  split at hr
  rename_i o err w1 hf
  rw [hs] at hf
  replace hs := (factoryCall_self _ _ _ _ _ hf).trans hs
  rcases err with _ | e
  swap
  · rw [if_pos (by simp)] at hr
    rw [← hr]
    exact runSteps_stop _ _ _ _ _ _ _ (runStep_produceFailed _ _ _ _ _ _ _ _ _ _ _ hf)
  rw [if_neg (by simp)] at hr
  split at hr
  rename_i err w2 hc
  rw [hs] at hc
  replace hs := (optional_self _ _ _ _ _ _ _ hc).trans hs
  rcases err with _ | e
  swap
  · rw [if_pos (by simp)] at hr
    rw [← hr]
    exact runSteps_stop _ _ _ _ _ _ _ (runStep_optionalFailed _ _ _ _ _ _ _ _ _ _ _ hf hc)
  rw [if_neg (by simp)] at hr
  rw [runSteps_next _ _ _ _ _ _ (runStep_optionalPassed _ _ _ _ _ _ _ _ _ _ hf hc)]
  -- APIService
  split at hr
  rename_i o err w1 hf
  rw [hs] at hf
  replace hs := (factoryCall_self _ _ _ _ _ hf).trans hs
  rcases err with _ | e
  swap
  · rw [if_pos (by simp)] at hr
    rw [← hr]
    exact runSteps_stop _ _ _ _ _ _ _ (runStep_produceFailed _ _ _ _ _ _ _ _ _ _ _ hf)
  rw [if_neg (by simp)] at hr
  split at hr
  rename_i err w2 hc
  rw [hs] at hc
  replace hs := (clientCall_self _ _ _ _ _ _ _ hc).trans hs
  rcases err with _ | e
  swap
  · rw [if_pos (by simp)] at hr
    rw [← hr]
    exact runSteps_stop _ _ _ _ _ _ _ (runStep_applyFailed _ _ _ _ _ _ _ _ _ _ _ _ hf hc (by simp))
  rw [if_neg (by simp)] at hr
  rw [runSteps_next _ _ _ _ _ _ (runStep_applied _ _ _ _ _ _ _ _ _ _ _ hf hc (by simp))]
  rw [← hr]
  exact (remove_eq ctx _ t hs).symm

/-! ## What a run can log -/

/-- What one step does to the world, case by case. -/
theorem runStep_cases {σ : Type} (t : MetricsServerTask σ) (ctx : Context) (sd : Step)
    (w : World σ) :
    (∃ m msg, sd.source = .factory m msg ∧ (t.factory m).2 ≠ none ∧
      runStep t ctx sd w = (some (.returned (Wrap (t.factory m).2 msg)),
        { w with trace := w.trace ++ [Event.factory m (t.factory m)] })) ∨
    ((sd.produced t.factory).2 = none ∧
      (sd.optional = true ∧ (sd.produced t.factory).1 = none) ∧
      runStep t ctx sd w = (none, { w with trace := w.trace ++ sd.produceEvents t.factory })) ∨
    ((sd.produced t.factory).2 = none ∧
      ¬ (sd.optional = true ∧ (sd.produced t.factory).1 = none) ∧
      ∃ res s',
        t.client.call sd.method ctx (sd.produced t.factory).1 w.cluster = (res, s') ∧
        runStep t ctx sd w =
          (if res ≠ none then some (sd.onError.outcome res (sd.produced t.factory).1) else none,
           { self := w.self, cluster := s',
             trace := w.trace ++ (sd.produceEvents t.factory ++
               [Event.client sd.method ctx (sd.produced t.factory).1 res]) })) := by
  rcases sd with ⟨src, cm, opt, msg⟩
  rcases src with ⟨m, initMsg⟩ | o
  · rcases hfm : t.factory m with ⟨o, _ | e⟩
    · by_cases hskip : opt = true ∧ o = none
      · right; left
        simp [runStep, applyStep, factoryCall, Step.produced, Step.produceEvents, hfm, hskip]
      · right; right
        refine ⟨by simp [Step.produced, hfm], by simpa [Step.produced, hfm] using hskip, ?_⟩
        rcases hc : t.client.call cm ctx o w.cluster with ⟨res, s'⟩
        refine ⟨res, s', by simp [Step.produced, hfm, hc], ?_⟩
        rcases res with _ | e <;>
          simp [runStep, applyStep, factoryCall, clientCall, Step.produced, Step.produceEvents,
            hfm, hskip, hc]
    · left
      exact ⟨m, initMsg, rfl, by simp [hfm], by simp [runStep, factoryCall, hfm]⟩
  · right; right
    refine ⟨rfl, by simp [Step.produced], ?_⟩
    rcases hc : t.client.call cm ctx (some o) w.cluster with ⟨res, s'⟩
    refine ⟨res, s', by simp [Step.produced, hc], ?_⟩
    rcases res with _ | e <;>
      simp [runStep, applyStep, clientCall, Step.produced, Step.produceEvents, hc]

/-- Running a plan extends the log by events that `Ran` allows and leaves the
receiver's struct as it was. -/
theorem runSteps_ran {σ : Type} (t : MetricsServerTask σ) (ctx : Context) (steps : List Step) :
    ∀ w : World σ, (runSteps t ctx steps w).2.self = w.self ∧
      ∃ evs, (runSteps t ctx steps w).2.trace = w.trace ++ evs ∧
        Ran t.factory ctx steps evs (runSteps t ctx steps w).1 ∧
        ∀ m c o r, Event.client m c o r ∈ evs → ∃ s', (t.client.call m c o s').1 = r := by
  induction steps with
  | nil => intro w; exact ⟨rfl, [], by simp [runSteps], Ran.done, by simp⟩
  | cons sd rest ih =>
    intro w
    rcases runStep_cases t ctx sd w with ⟨m, msg, hsrc, hne, h⟩ | ⟨hp, hskip, h⟩ |
      ⟨hp, hcall, res, s', hc, h⟩
    · rw [runSteps_stop _ _ _ _ _ _ _ h]
      exact ⟨rfl, _, rfl, Ran.produceFailed sd rest m msg hsrc hne, by simp⟩
    · rw [runSteps_next _ _ _ _ _ _ h]
      obtain ⟨hself, evs, htr, hran, hcl⟩ :=
        ih { w with trace := w.trace ++ sd.produceEvents t.factory }
      refine ⟨hself, sd.produceEvents t.factory ++ evs, ?_,
        Ran.skipped sd rest evs _ hp hskip hran, ?_⟩
      · rw [htr, List.append_assoc]
      · intro m c o r hmem
        rcases List.mem_append.1 hmem with h1 | h1
        · rcases hsrc : sd.source with ⟨m', msg'⟩ | o' <;>
            simp [Step.produceEvents, hsrc] at h1
        · exact hcl m c o r h1
    · have hres : ∃ s'', (t.client.call sd.method ctx (sd.produced t.factory).1 s'').1 = res :=
        ⟨w.cluster, by rw [hc]⟩
      have hprod : ∀ m c o r, Event.client m c o r ∈ sd.produceEvents t.factory → False := by
        intro m c o r h1
        rcases hsrc : sd.source with ⟨m', msg'⟩ | o' <;>
          simp [Step.produceEvents, hsrc] at h1
      rcases res with _ | e
      · rw [if_neg (by simp)] at h
        rw [runSteps_next _ _ _ _ _ _ h]
        obtain ⟨hself, evs, htr, hran, hcl⟩ := ih _
        refine ⟨hself, _, ?_, Ran.applied sd rest evs _ hp hcall hran, ?_⟩
        · rw [htr]
          simp [List.append_assoc]
        · intro m c o r hmem
          rcases List.mem_append.1 hmem with h1 | h1
          · exact (hprod m c o r h1).elim
          · rcases List.mem_cons.1 h1 with h2 | h2
            · cases h2; exact hres
            · exact hcl m c o r h2
      · rw [if_pos (by simp)] at h
        rw [runSteps_stop _ _ _ _ _ _ _ h]
        refine ⟨rfl, _, rfl, Ran.applyFailed sd rest (some e) hp hcall (by simp), ?_⟩
        intro m c o r hmem
        rcases List.mem_append.1 hmem with h1 | h1
        · exact (hprod m c o r h1).elim
        · rcases List.mem_singleton.1 h1 with h2
          cases h2; exact hres

theorem produceEvents_ok (f : Factory) (sd : Step) (hp : (sd.produced f).2 = none) :
    ∀ e ∈ sd.produceEvents f, e.failed = false := by
  intro e he
  rcases hsrc : sd.source with ⟨m, msg⟩ | o
  · simp only [Step.produceEvents, hsrc, List.mem_singleton] at he
    simp only [Step.produced, hsrc] at hp
    subst he
    simp [Event.failed, hp]
  · simp [Step.produceEvents, hsrc] at he

theorem forget_of_ok (e : Event) (h : e.failed = false) : e.forget = e := by
  cases e with
  | factory m res => rfl
  | client m c o r =>
    cases r with
    | none => rfl
    | some x => simp [Event.failed] at h

theorem map_forget_of_ok (evs : List Event) (h : ∀ e ∈ evs, e.failed = false) :
    evs.map Event.forget = evs := by
  induction evs with
  | nil => rfl
  | cons e rest ih =>
    rw [List.map_cons, forget_of_ok e (h e (List.mem_cons_self _ _)),
      ih (fun x hx => h x (List.mem_cons_of_mem _ hx))]

theorem passEvents_skip (f : Factory) (ctx : Context) (sd : Step)
    (hskip : sd.optional = true ∧ (sd.produced f).1 = none) :
    sd.passEvents f ctx = sd.produceEvents f := by
  simp [Step.passEvents, hskip]

theorem passEvents_call (f : Factory) (ctx : Context) (sd : Step)
    (hcall : ¬ (sd.optional = true ∧ (sd.produced f).1 = none)) :
    sd.passEvents f ctx =
      sd.produceEvents f ++ [Event.client sd.method ctx (sd.produced f).1 none] := by
  unfold Step.passEvents
  rw [if_neg hcall]

theorem Stops.ne_nil {f : Factory} {ctx : Context} {sd : Step} {e : Event} {out : Outcome}
    (h : Stops f ctx sd e out) : out ≠ .returned none := by
  rcases h with ⟨m, msg, _, hne, _, rfl⟩ | ⟨res, hres, _, _, _, rfl⟩
  · rcases h2 : (f m).2 with _ | x
    · exact (hne h2).elim
    · simp [Wrap]
  · rcases res with _ | x
    · exact (hres rfl).elim
    · unfold ApplyMessage.outcome
      split <;> simp [Wrap]

/-- The normal form of a run: either no call failed, the plan ran to its end
and `Run` returns nil, or the log is a run of successful calls followed by one
failing call, which stopped the run at some step of the plan. -/
theorem Ran.normal {f : Factory} {ctx : Context} {steps : List Step} {evs : List Event}
    {out : Outcome} (h : Ran f ctx steps evs out) :
    (out = .returned none ∧ evs = plannedEvents f ctx steps ∧ ∀ e ∈ evs, e.failed = false) ∨
    (∃ (pre : List Event) (e : Event) (i : Nat) (sd : Step), evs = pre ++ [e] ∧ (∀ x ∈ pre, x.failed = false) ∧ e.failed = true ∧
      (pre ++ [e.forget]) <+: plannedEvents f ctx steps ∧ steps[i]? = some sd ∧
      Stops f ctx sd e out) := by
  induction h with
  | done => left; exact ⟨rfl, rfl, by simp⟩
  | produceFailed sd rest m msg hsrc hne =>
    right
    refine ⟨[], .factory m (f m), 0, sd, rfl, by simp, ?_, ?_, by simp, ?_⟩
    · rcases h2 : (f m).2 with _ | x
      · exact (hne h2).elim
      · simp [Event.failed, h2]
    · refine ⟨(if sd.optional = true ∧ (sd.produced f).1 = none then []
          else [Event.client sd.method ctx (sd.produced f).1 none]) ++
          plannedEvents f ctx rest, ?_⟩
      simp [plannedEvents, Step.passEvents, Step.produceEvents, hsrc, Event.forget]
    · exact Or.inl ⟨m, msg, hsrc, hne, rfl, rfl⟩
  | skipped sd rest evs out hp hskip _ ih =>
    rcases ih with ⟨ho, hev, hok⟩ | ⟨pre, e, i, sd', hev, hpre, hfail, hpref, hidx, hstop⟩
    · left
      refine ⟨ho, ?_, ?_⟩
      · rw [hev, plannedEvents, passEvents_skip f ctx sd hskip]
      · intro x hx
        rcases List.mem_append.1 hx with h1 | h1
        · exact produceEvents_ok f sd hp x h1
        · exact hok x h1
    · right
      refine ⟨sd.produceEvents f ++ pre, e, i + 1, sd', ?_, ?_, hfail, ?_, ?_, hstop⟩
      · rw [hev, List.append_assoc]
      · intro x hx
        rcases List.mem_append.1 hx with h1 | h1
        · exact produceEvents_ok f sd hp x h1
        · exact hpre x h1
      · rw [plannedEvents, passEvents_skip f ctx sd hskip, List.append_assoc]
        exact (List.prefix_append_right_inj _).2 hpref
      · simpa using hidx
  | applyFailed sd rest res hp hcall hres =>
    right
    refine ⟨sd.produceEvents f, _, 0, sd, rfl, produceEvents_ok f sd hp, ?_, ?_, by simp, ?_⟩
    · rcases res with _ | x
      · exact (hres rfl).elim
      · rfl
    · rw [plannedEvents, passEvents_call f ctx sd hcall]
      exact List.prefix_append _ _
    · exact Or.inr ⟨res, hres, hp, hcall, rfl, rfl⟩
  | applied sd rest evs out hp hcall _ ih =>
    have hpass : ∀ x ∈ sd.produceEvents f ++
        [Event.client sd.method ctx (sd.produced f).1 none], x.failed = false := by
      intro x hx
      rcases List.mem_append.1 hx with h1 | h1
      · exact produceEvents_ok f sd hp x h1
      · rw [List.mem_singleton.1 h1]; rfl
    rcases ih with ⟨ho, hev, hok⟩ | ⟨pre, e, i, sd', hev, hpre, hfail, hpref, hidx, hstop⟩
    · left
      refine ⟨ho, ?_, ?_⟩
      · rw [hev, plannedEvents, passEvents_call f ctx sd hcall]
        simp
      · intro x hx
        rcases List.mem_append.1 hx with h1 | h1
        · exact produceEvents_ok f sd hp x h1
        · rcases List.mem_cons.1 h1 with h2 | h2
          · rw [h2]; rfl
          · exact hok x h2
    · right
      refine ⟨(sd.produceEvents f ++ [Event.client sd.method ctx (sd.produced f).1 none])
          ++ pre, e, i + 1, sd', ?_, ?_, hfail, ?_, ?_, hstop⟩
      · rw [hev]; simp
      · intro x hx
        rcases List.mem_append.1 hx with h1 | h1
        · exact hpass x h1
        · exact hpre x h1
      · rw [plannedEvents, passEvents_call f ctx sd hcall, List.append_assoc]
        exact (List.prefix_append_right_inj _).2 hpref
      · simpa using hidx

/-! ## Facts about lists and about the plan -/

theorem Run_enabled {σ : Type} (ctx : Context) (w : World σ) (hen : w.self.enabled = true) :
    Run ctx w = runSteps w.self ctx (plan w.self.namespace_) w := by
  unfold Run
  rw [if_pos hen]
  exact create_eq ctx w

/-- An enabled run from a fresh world leaves a log that `Ran` allows for the
plan, with client results the client really gave, and the receiver untouched. -/
theorem Run_ran {σ : Type} (t : MetricsServerTask σ) (ctx : Context) (s : σ)
    (hen : t.enabled = true) :
    (Run ctx (World.init t s)).2.self = t ∧
    Ran t.factory ctx (plan t.namespace_) (Run ctx (World.init t s)).2.trace
      (Run ctx (World.init t s)).1 ∧
    ∀ m c o r, Event.client m c o r ∈ (Run ctx (World.init t s)).2.trace →
      ∃ s', (t.client.call m c o s').1 = r := by
  have h := Run_enabled ctx (World.init t s) hen
  obtain ⟨hself, evs, htr, hran, hcl⟩ := runSteps_ran t ctx (plan t.namespace_) (World.init t s)
  have h' : Run ctx (World.init t s) = runSteps t ctx (plan t.namespace_) (World.init t s) := h
  rw [h']
  have htr' : (runSteps t ctx (plan t.namespace_) (World.init t s)).2.trace = evs := by
    rw [htr]; rfl
  rw [htr']
  exact ⟨hself, hran, hcl⟩

/-- Every client call of a run is the call of a step of the plan, made with the
context of the run on the object the step produced, and never on a nil
optional object. -/
theorem Ran.client_mem {f : Factory} {ctx : Context} {steps : List Step} {evs : List Event}
    {out : Outcome} (h : Ran f ctx steps evs out) :
    ∀ m c o r, Event.client m c o r ∈ evs →
      ∃ sd ∈ steps, sd.method = m ∧ c = ctx ∧ o = (sd.produced f).1 ∧
        ¬ (sd.optional = true ∧ o = none) := by
  have hprod : ∀ (sd : Step) m c o r, Event.client m c o r ∈ sd.produceEvents f → False := by
    intro sd m c o r h1
    rcases hsrc : sd.source with ⟨m', msg'⟩ | o' <;>
      simp [Step.produceEvents, hsrc] at h1
  induction h with
  | done => intro m c o r hmem; simp at hmem
  | produceFailed sd rest m' msg hsrc hne => intro m c o r hmem; simp at hmem
  | skipped sd rest evs out hp hskip _ ih =>
    intro m c o r hmem
    rcases List.mem_append.1 hmem with h1 | h1
    · exact (hprod sd m c o r h1).elim
    · obtain ⟨sd', hsd', hrest⟩ := ih m c o r h1
      exact ⟨sd', List.mem_cons_of_mem _ hsd', hrest⟩
  | applyFailed sd rest res hp hcall hres =>
    intro m c o r hmem
    rcases List.mem_append.1 hmem with h1 | h1
    · exact (hprod sd m c o r h1).elim
    · rw [List.mem_singleton] at h1
      cases h1
      exact ⟨sd, List.mem_cons_self _ _, rfl, rfl, rfl, hcall⟩
  | applied sd rest evs out hp hcall _ ih =>
    intro m c o r hmem
    rcases List.mem_append.1 hmem with h1 | h1
    · exact (hprod sd m c o r h1).elim
    · rcases List.mem_cons.1 h1 with h2 | h2
      · cases h2
        exact ⟨sd, List.mem_cons_self _ _, rfl, rfl, rfl, hcall⟩
      · obtain ⟨sd', hsd', hrest⟩ := ih m c o r h2
        exact ⟨sd', List.mem_cons_of_mem _ hsd', hrest⟩

/-- In a list that ends with its only marked element, any marked element is the
last one. -/
theorem last_of_marked {α : Type} (P : α → Prop) (pre pre' post' : List α) (e e' : α)
    (hpre : ∀ x ∈ pre, ¬ P x) (he' : P e') (h : pre ++ [e] = pre' ++ e' :: post') :
    post' = [] ∧ e' = e ∧ pre' = pre := by
  rcases List.eq_nil_or_concat post' with rfl | ⟨q, z, rfl⟩
  · have h2 := List.append_inj' h rfl
    exact ⟨rfl, by simpa using h2.2.symm, h2.1.symm⟩
  · have h3 : pre ++ [e] = (pre' ++ e' :: q) ++ [z] := by simpa using h
    have h2 := List.append_inj' h3 rfl
    exact (hpre e' (by rw [h2.1]; simp) he').elim

/-- If a list starting `a ++ [y]` has an element outside `a` at some place, that
place is the last of `a ++ [y]` and nothing of the list follows it. -/
theorem at_end_of_prefix {α : Type} (p q a : List α) (x y : α) (hx : x ∉ a)
    (h : p ++ x :: q <+: a ++ [y]) : q = [] ∧ x = y ∧ p = a := by
  obtain ⟨t, ht⟩ := h
  have ht' : p ++ (x :: (q ++ t)) = a ++ [y] := by simpa using ht
  rcases List.append_eq_append_iff.1 ht' with ⟨a', ha, hq⟩ | ⟨c', hc, hb'⟩
  · -- a = p ++ a', x :: (q ++ t) = a' ++ [y]
    rcases a' with _ | ⟨z, a''⟩
    · have h1 : x :: (q ++ t) = [y] := by simpa using hq
      have h2 : x = y ∧ q ++ t = [] := by simpa using h1
      have h3 : q = [] := (List.append_eq_nil.1 h2.2).1
      exact ⟨h3, h2.1, by simpa using ha.symm⟩
    · have h1 : x = z := by
        have := hq
        simp at this
        exact this.1
      exact (hx (by rw [ha, h1]; simp)).elim
  · -- p = a ++ c', [y] = c' ++ x :: (q ++ t)
    rcases c' with _ | ⟨z, c''⟩
    · have h1 : [y] = x :: (q ++ t) := by simpa using hb'
      have h2 : y = x ∧ q ++ t = [] := by simpa using h1
      have h3 : q = [] := (List.append_eq_nil.1 h2.2).1
      exact ⟨h3, h2.1.symm, by simpa using hc⟩
    · have h1 := congrArg List.length hb'
      simp at h1

theorem plannedEvents_append (f : Factory) (ctx : Context) (a b : List Step) :
    plannedEvents f ctx (a ++ b) = plannedEvents f ctx a ++ plannedEvents f ctx b := by
  induction a with
  | nil => rfl
  | cons sd rest ih => simp [plannedEvents, ih]

/-- The client calls of the plan's success path are the source's fourteen calls
without the `PodDisruptionBudget` calls on a nil object. -/
theorem plan_calls (f : Factory) (ctx : Context) (ns : String) :
    clientCalls (plannedEvents f ctx (plan ns)) =
      (successCalls f ctx ns).filter (fun c => !c.skipped) := by
  rcases h1 : (f .MetricsServerPodDisruptionBudget).1 with _ | o1 <;>
    rcases h2 : (f .PrometheusAdapterPodDisruptionBudget).1 with _ | o2 <;>
    simp [plan, createSteps, cleanupSteps, plannedEvents, Step.passEvents, Step.produceEvents,
      Step.produced, clientCalls, successCalls, Call.skipped, ClientMethod.kind, h1, h2]

/-- When no factory call and no client call fails, the run goes through the
whole plan. -/
theorem Run_all_ok {σ : Type} (t : MetricsServerTask σ) (ctx : Context) (s : σ)
    (hen : t.enabled = true) (hf : ∀ m, (t.factory m).2 = none)
    (hc : ∀ m c o s', (t.client.call m c o s').1 = none) :
    (Run ctx (World.init t s)).1 = .returned none ∧
    (Run ctx (World.init t s)).2.trace = plannedEvents t.factory ctx (plan t.namespace_) := by
  obtain ⟨_, hran, hcl⟩ := Run_ran t ctx s hen
  rcases hran.normal with ⟨ho, hev, _⟩ | ⟨pre, e, i, sd, hev, _, _, _, _, hstop⟩
  · exact ⟨ho, hev⟩
  · exfalso
    have hmem : e ∈ (Run ctx (World.init t s)).2.trace := by rw [hev]; simp
    rcases hstop with ⟨m, msg, _, hne, _, _⟩ | ⟨res, hres, _, _, he, _⟩
    · exact hne (hf m)
    · subst he
      obtain ⟨s', hs'⟩ := hcl _ _ _ _ hmem
      rw [hc] at hs'
      exact hres hs'.symm

/-- C1. A task constructed with enabled=false does nothing: for every factory,
config, client and cluster state, `Run` returns nil and leaves the world as it
was, so its log holds no factory call and no client call and the cluster is
unchanged. -/
theorem disabled_noop {σ : Type} (ctx0 ctx : Context) (ns : String) (cl : Client σ)
    (f : Factory) (cfg : Config) (s : σ) :
    Run ctx (World.init (NewMetricsServerTask ctx0 ns cl false f cfg) s) =
      (.returned none, World.init (NewMetricsServerTask ctx0 ns cl false f cfg) s) ∧
    (Run ctx (World.init (NewMetricsServerTask ctx0 ns cl false f cfg) s)).2.trace = [] ∧
    (Run ctx (World.init (NewMetricsServerTask ctx0 ns cl false f cfg) s)).2.cluster = s :=
  ⟨rfl, rfl, rfl⟩

/-- C2, as amended. For an enabled task whose factory calls all succeed with
non-nil objects and whose client calls all succeed, `Run` returns nil and the
client calls are exactly the fourteen of `successCalls`, each with the context
of the run and the object of its factory method: the ten `CreateOrUpdate...`
calls in the order of the source, `CreateOrUpdateClusterRoleBinding` twice
(for the two ClusterRoleBinding objects), then the four `Delete...` calls. -/
theorem success_path {σ : Type} (t : MetricsServerTask σ) (ctx : Context) (s : σ)
    (hen : t.enabled = true) (hf : ∀ m, (t.factory m).2 = none)
    (hobj : ∀ m, (t.factory m).1 ≠ none)
    (hc : ∀ m c o s', (t.client.call m c o s').1 = none) :
    (Run ctx (World.init t s)).1 = .returned none ∧
    clientCalls (Run ctx (World.init t s)).2.trace = successCalls t.factory ctx t.namespace_ ∧
    (clientCalls (Run ctx (World.init t s)).2.trace).map Prod.fst =
      [ .CreateOrUpdateServiceAccount, .CreateOrUpdateClusterRole,
        .CreateOrUpdateClusterRoleBinding, .CreateOrUpdateClusterRoleBinding,
        .CreateOrUpdateRoleBinding, .CreateOrUpdateService, .CreateOrUpdateDeployment,
        .CreateOrUpdateServiceMonitor, .CreateOrUpdatePodDisruptionBudget,
        .CreateOrUpdateAPIService, .DeletePodDisruptionBudget, .DeleteServiceMonitor,
        .DeleteService, .DeleteDeployment ] := by
  obtain ⟨ho, hev⟩ := Run_all_ok t ctx s hen hf hc
  have hcalls : clientCalls (Run ctx (World.init t s)).2.trace =
      successCalls t.factory ctx t.namespace_ := by
    rw [hev, plan_calls]
    have h1 := hobj .MetricsServerPodDisruptionBudget
    have h2 := hobj .PrometheusAdapterPodDisruptionBudget
    rcases h3 : (t.factory .MetricsServerPodDisruptionBudget).1 with _ | o1
    · exact (h1 h3).elim
    · rcases h4 : (t.factory .PrometheusAdapterPodDisruptionBudget).1 with _ | o2
      · exact (h2 h4).elim
      · simp [successCalls, Call.skipped, ClientMethod.kind, h3, h4]
  refine ⟨ho, hcalls, ?_⟩
  rw [hcalls]
  rfl

theorem success_path_witness :
    (sampleTask okFactory okClient).enabled = true ∧
    (Run runCtx (World.init (sampleTask okFactory okClient) ())).1 = .returned none ∧
    clientCalls (Run runCtx (World.init (sampleTask okFactory okClient) ())).2.trace =
      successCalls okFactory runCtx "openshift-monitoring" :=
  ⟨rfl, (success_path (sampleTask okFactory okClient) runCtx () rfl (fun _ => rfl)
      (fun m => by cases m <;> simp [sampleTask, NewMetricsServerTask, okFactory])
      (fun _ _ _ _ => rfl)).1,
    (success_path (sampleTask okFactory okClient) runCtx () rfl (fun _ => rfl)
      (fun m => by cases m <;> simp [sampleTask, NewMetricsServerTask, okFactory])
      (fun _ _ _ _ => rfl)).2.1⟩

/-- C2, as the spec words it, fails: on the success path of the sample task the
client methods called are not the thirteen of `specOrder`, because
`CreateOrUpdateClusterRoleBinding` is called twice. -/
theorem spec_order_refuted :
    (Run runCtx (World.init (sampleTask okFactory okClient) ())).1 = .returned none ∧
    (clientCalls (Run runCtx (World.init (sampleTask okFactory okClient) ())).2.trace).map
      Prod.fst ≠ specOrder ∧
    ((clientCalls (Run runCtx (World.init (sampleTask okFactory okClient) ())).2.trace).map
      Prod.fst).count .CreateOrUpdateClusterRoleBinding = 2 := by
  decide

/-- The steps of the plan that call a `PodDisruptionBudget` method are optional
and take their object from the factory method of that component. -/
theorem plan_budget_source (f : Factory) (ns : String) :
    ∀ sd ∈ plan ns,
      (sd.method = .CreateOrUpdatePodDisruptionBudget →
        sd.optional = true ∧ sd.produced f = f .MetricsServerPodDisruptionBudget) ∧
      (sd.method = .DeletePodDisruptionBudget →
        sd.optional = true ∧ sd.produced f = f .PrometheusAdapterPodDisruptionBudget) := by
  intro sd hsd
  simp only [plan, createSteps, cleanupSteps, List.cons_append, List.nil_append,
    List.mem_cons, List.mem_singleton, List.not_mem_nil, or_false] at hsd
  rcases hsd with (rfl | rfl | rfl | rfl | rfl | rfl | rfl | rfl | rfl | rfl | rfl | rfl |
    rfl | rfl) <;> simp [Step.produced]

/-- C6. For an enabled task, when the factory returns a nil metrics-server
PodDisruptionBudget, `CreateOrUpdatePodDisruptionBudget` is not called, and
when it returns a nil prometheus-adapter PodDisruptionBudget,
`DeletePodDisruptionBudget` is not called, whatever else happens.  Execution
continues: when the factory calls and the client calls all succeed, `Run`
returns nil and the client calls are those of the success path with the
`PodDisruptionBudget` calls on a nil object removed and nothing else changed
(`CreateOrUpdateAPIService` is still called after a skipped create, the three
other deletes after a skipped delete). -/
theorem optional_skip {σ : Type} (t : MetricsServerTask σ) (ctx : Context) (s : σ)
    (hen : t.enabled = true) :
    ((t.factory .MetricsServerPodDisruptionBudget).1 = none →
      ∀ c o r, Event.client .CreateOrUpdatePodDisruptionBudget c o r ∉
        (Run ctx (World.init t s)).2.trace) ∧
    ((t.factory .PrometheusAdapterPodDisruptionBudget).1 = none →
      ∀ c o r, Event.client .DeletePodDisruptionBudget c o r ∉
        (Run ctx (World.init t s)).2.trace) ∧
    ((∀ m, (t.factory m).2 = none) → (∀ m c o s', (t.client.call m c o s').1 = none) →
      (Run ctx (World.init t s)).1 = .returned none ∧
      clientCalls (Run ctx (World.init t s)).2.trace =
        (successCalls t.factory ctx t.namespace_).filter (fun c => !c.skipped) ∧
      ((t.factory .MetricsServerPodDisruptionBudget).1 = none →
        (t.factory .PrometheusAdapterPodDisruptionBudget).1 ≠ none →
        clientCalls (Run ctx (World.init t s)).2.trace =
          (successCalls t.factory ctx t.namespace_).eraseIdx 8) ∧
      ((t.factory .MetricsServerPodDisruptionBudget).1 ≠ none →
        (t.factory .PrometheusAdapterPodDisruptionBudget).1 = none →
        clientCalls (Run ctx (World.init t s)).2.trace =
          (successCalls t.factory ctx t.namespace_).eraseIdx 10) ∧
      ((t.factory .MetricsServerPodDisruptionBudget).1 = none →
        (t.factory .PrometheusAdapterPodDisruptionBudget).1 = none →
        clientCalls (Run ctx (World.init t s)).2.trace =
          ((successCalls t.factory ctx t.namespace_).eraseIdx 10).eraseIdx 8)) := by
  obtain ⟨_, hran, _⟩ := Run_ran t ctx s hen
  refine ⟨?_, ?_, ?_⟩
  · intro hnil c o r hmem
    obtain ⟨sd, hsd, hm, _, ho, hcall⟩ := hran.client_mem _ c o r hmem
    obtain ⟨hopt, hprod⟩ := (plan_budget_source t.factory t.namespace_ sd hsd).1 hm
    exact hcall ⟨hopt, by rw [ho, hprod]; exact hnil⟩
  · intro hnil c o r hmem
    obtain ⟨sd, hsd, hm, _, ho, hcall⟩ := hran.client_mem _ c o r hmem
    obtain ⟨hopt, hprod⟩ := (plan_budget_source t.factory t.namespace_ sd hsd).2 hm
    exact hcall ⟨hopt, by rw [ho, hprod]; exact hnil⟩
  · intro hf hc
    obtain ⟨ho, hev⟩ := Run_all_ok t ctx s hen hf hc
    have hcalls : clientCalls (Run ctx (World.init t s)).2.trace =
        (successCalls t.factory ctx t.namespace_).filter (fun c => !c.skipped) := by
      rw [hev, plan_calls]
    refine ⟨ho, hcalls, ?_, ?_, ?_⟩
    · intro h1 h2
      rcases h4 : (t.factory .PrometheusAdapterPodDisruptionBudget).1 with _ | o2
      · exact (h2 h4).elim
      · rw [hcalls]
        simp [successCalls, Call.skipped, ClientMethod.kind, h1, h4, List.eraseIdx]
    · intro h1 h2
      rcases h3 : (t.factory .MetricsServerPodDisruptionBudget).1 with _ | o1
      · exact (h1 h3).elim
      · rw [hcalls]
        simp [successCalls, Call.skipped, ClientMethod.kind, h2, h3, List.eraseIdx]
    · intro h1 h2
      rw [hcalls]
      simp [successCalls, Call.skipped, ClientMethod.kind, h1, h2, List.eraseIdx]

theorem optional_skip_witness :
    (sampleTask noBudgetFactory okClient).enabled = true ∧
    (noBudgetFactory .MetricsServerPodDisruptionBudget).1 = none ∧
    (∀ c o r, Event.client .CreateOrUpdatePodDisruptionBudget c o r ∉
      (Run runCtx (World.init (sampleTask noBudgetFactory okClient) ())).2.trace) ∧
    (Run runCtx (World.init (sampleTask noBudgetFactory okClient) ())).1 = .returned none ∧
    clientCalls (Run runCtx (World.init (sampleTask noBudgetFactory okClient) ())).2.trace =
      (successCalls noBudgetFactory runCtx "openshift-monitoring").filter
        (fun c => !c.skipped) :=
  ⟨rfl, rfl,
    (optional_skip (sampleTask noBudgetFactory okClient) runCtx () rfl).1 rfl,
    ((optional_skip (sampleTask noBudgetFactory okClient) runCtx () rfl).2.2
      (fun m => by cases m <;> rfl) (fun _ _ _ _ => rfl)).1,
    ((optional_skip (sampleTask noBudgetFactory okClient) runCtx () rfl).2.2
      (fun m => by cases m <;> rfl) (fun _ _ _ _ => rfl)).2.1⟩

theorem plannedEvents_mem (f : Factory) (ctx : Context) (steps : List Step) :
    ∀ x ∈ plannedEvents f ctx steps, ∃ sd ∈ steps, x ∈ sd.passEvents f ctx := by
  induction steps with
  | nil => intro x hx; simp [plannedEvents] at hx
  | cons sd rest ih =>
    intro x hx
    rcases List.mem_append.1 hx with h | h
    · exact ⟨sd, List.mem_cons_self _ _, h⟩
    · obtain ⟨sd', hsd', hx'⟩ := ih x h
      exact ⟨sd', List.mem_cons_of_mem _ hsd', hx'⟩

/-- A failing client call ends the run with the error wrapped, or with a panic
when the message cannot be formatted for a nil object. -/
theorem outcome_cases (a : ApplyMessage) (e : GoError) (o : Option Object) :
    (a.outcome (some e) o = .panicked ∧ o = none) ∨
    ∃ msg, a.render o = some msg ∧ a.outcome (some e) o = .returned (some (.withMessage e msg)) := by
  cases a with
  | fixed text => right; exact ⟨text, rfl, rfl⟩
  | identity verb =>
    cases o with
    | none => left; exact ⟨rfl, rfl⟩
    | some sm => right; exact ⟨_, rfl, rfl⟩

/-- C4, as amended. For an enabled task, an error returned by a `Delete...`
call of the cleanup sequence, a "not found" error included, is not treated as
success: the failing delete is the last call made, `Run` does not return nil,
and it returns that error wrapped (or panics, when the call was
`DeleteServiceMonitor` on a nil object).  Absence is absorbed by the client,
whose delete then returns nil. -/
theorem delete_error_aborts {σ : Type} (t : MetricsServerTask σ) (ctx : Context) (s : σ)
    (hen : t.enabled = true) (pre post : List Event) (m : ClientMethod) (c : Context)
    (o : Option Object) (e : GoError)
    (htr : (Run ctx (World.init t s)).2.trace = pre ++ .client m c o (some e) :: post)
    (hdel : m.isDelete = true) :
    post = [] ∧ (Run ctx (World.init t s)).1 ≠ .returned none ∧
    (((Run ctx (World.init t s)).1 = .panicked ∧ o = none) ∨
      ∃ msg, (Run ctx (World.init t s)).1 = .returned (some (.withMessage e msg))) := by
  obtain ⟨_, hran, _⟩ := Run_ran t ctx s hen
  generalize (Run ctx (World.init t s)).2.trace = tr at hran htr
  generalize (Run ctx (World.init t s)).1 = out at hran ⊢
  have hfail : (Event.client m c o (some e)).failed = true := rfl
  rcases hran.normal with ⟨_, _, hok⟩ | ⟨pre0, e0, i, sd, hev, hpre, _, _, _, hstop⟩
  · have := hok (.client m c o (some e)) (by rw [htr]; simp)
    exact (Bool.false_ne_true (this.symm.trans hfail)).elim
  · obtain ⟨h1, h2, _⟩ := last_of_marked (fun x => x.failed = true) pre0 pre post e0 _
      (fun x hx hf => Bool.false_ne_true ((hpre x hx).symm.trans hf)) hfail
      (hev.symm.trans htr)
    refine ⟨h1, hstop.ne_nil, ?_⟩
    rcases hstop with ⟨m', msg, _, _, he0, _⟩ | ⟨res, _, _, _, he0, rfl⟩
    · rw [he0] at h2; cases h2
    · rw [he0] at h2
      cases h2
      rcases outcome_cases sd.onError e (sd.produced t.factory).1 with h | ⟨msg, _, h⟩
      · exact Or.inl h
      · exact Or.inr ⟨msg, h⟩

theorem delete_error_aborts_witness :
    (sampleTask okFactory (failingClient .DeleteService otherError)).enabled = true ∧
    ClientMethod.DeleteService.isDelete = true ∧
    (Run runCtx (World.init (sampleTask okFactory
      (failingClient .DeleteService otherError)) ())).1 ≠ .returned none :=
  ⟨rfl, rfl,
    (delete_error_aborts (sampleTask okFactory (failingClient .DeleteService otherError))
      runCtx () rfl
      (Run runCtx (World.init (sampleTask okFactory
        (failingClient .DeleteService otherError)) ())).2.trace.dropLast []
      .DeleteService runCtx (okFactory .PrometheusAdapterService).1 otherError
      (by decide) rfl).2.1⟩

/-- C4, as the spec words it, fails: when `DeletePodDisruptionBudget` returns a
"not found" error, `Run` does not return nil but that error wrapped, and none
of the remaining deletes is called. -/
theorem not_found_refuted :
    notFoundError.IsNotFound = true ∧
    (Run runCtx (World.init (sampleTask okFactory
      (failingClient .DeletePodDisruptionBudget notFoundError)) ())).1 =
      .returned (some (.withMessage notFoundError
        "deleting PrometheusAdapter PodDisruptionBudget failed")) ∧
    (clientCalls (Run runCtx (World.init (sampleTask okFactory
      (failingClient .DeletePodDisruptionBudget notFoundError)) ())).2.trace).map Prod.fst =
      [ .CreateOrUpdateServiceAccount, .CreateOrUpdateClusterRole,
        .CreateOrUpdateClusterRoleBinding, .CreateOrUpdateClusterRoleBinding,
        .CreateOrUpdateRoleBinding, .CreateOrUpdateService, .CreateOrUpdateDeployment,
        .CreateOrUpdateServiceMonitor, .CreateOrUpdatePodDisruptionBudget,
        .CreateOrUpdateAPIService, .DeletePodDisruptionBudget ] := by
  decide

theorem passEvents_method (f : Factory) (ctx : Context) (sd : Step) :
    ∀ x ∈ sd.passEvents f ctx, x.clientMethod = none ∨ x.clientMethod = some sd.method := by
  intro x hx
  rcases List.mem_append.1 hx with h | h
  · left
    rcases hsrc : sd.source with ⟨m, msg⟩ | o
    · simp only [Step.produceEvents, hsrc, List.mem_singleton] at h
      subst h; rfl
    · simp [Step.produceEvents, hsrc] at h
  · right
    split at h
    · simp at h
    · rw [List.mem_singleton] at h
      subst h; rfl

/-- The plan is the thirteen steps that go through the factory followed by the
delete of the residual deployment, and none of the thirteen calls
`DeleteDeployment`. -/
theorem plan_split (f : Factory) (ctx : Context) (ns : String) :
    ∃ before : List Event,
      plannedEvents f ctx (plan ns) =
        before ++ [Event.client .DeleteDeployment ctx (some (residualDeployment ns)) none] ∧
      ∀ x ∈ before, x.clientMethod ≠ some .DeleteDeployment := by
  refine ⟨plannedEvents f ctx (createSteps ++ (cleanupSteps ns).take 3), ?_, ?_⟩
  · have h : plan ns = (createSteps ++ (cleanupSteps ns).take 3) ++
        [{ source := .literal (residualDeployment ns), method := .DeleteDeployment,
           optional := false,
           onError := .fixed "deleting PrometheusAdapter Deployment failed" }] := by
      simp [plan, cleanupSteps]
    rw [h, plannedEvents_append]
    simp [plannedEvents, Step.passEvents, Step.produceEvents, Step.produced]
  · intro x hx
    obtain ⟨sd, hsd, hx⟩ := plannedEvents_mem f ctx _ x hx
    have hm : sd.method ≠ .DeleteDeployment := by
      simp only [createSteps, cleanupSteps, List.take, List.cons_append, List.nil_append,
        List.mem_cons, List.mem_singleton, List.not_mem_nil, or_false] at hsd
      rcases hsd with (rfl | rfl | rfl | rfl | rfl | rfl | rfl | rfl | rfl | rfl | rfl |
        rfl | rfl) <;> simp
    rcases passEvents_method f ctx sd x hx with h | h
    · rw [h]; simp
    · rw [h]; simpa using hm

/-- With client results blanked, the log of a run starts the log of the plan. -/
theorem Ran.forget_prefix {f : Factory} {ctx : Context} {steps : List Step}
    {evs : List Event} {out : Outcome} (h : Ran f ctx steps evs out) :
    evs.map Event.forget <+: plannedEvents f ctx steps := by
  rcases h.normal with ⟨_, hev, hok⟩ | ⟨pre, e, i, sd, hev, hpre, _, hpref, _, _⟩
  · rw [map_forget_of_ok evs hok, hev]
  · rw [hev, List.map_append, map_forget_of_ok pre hpre]
    exact hpref

/-- C8, as amended. For an enabled task, a `DeleteDeployment` call is the last
call of the log; it is made with the context of the run on the object named
"prometheus-adapter" in the task's namespace, which no factory call produces,
so it is the same for every factory and config; every call before it succeeded.
When `Run` returns nil that call is the last of the log.  The residual delete is
reached only through the cleanup steps before it: when a factory call fails, no
`DeleteDeployment` call is made. -/
theorem residual_delete {σ : Type} (t : MetricsServerTask σ) (ctx : Context) (s : σ)
    (hen : t.enabled = true) :
    (∀ pre post c o x,
      (Run ctx (World.init t s)).2.trace = pre ++ Event.client .DeleteDeployment c o x :: post →
      post = [] ∧ c = ctx ∧ o = some (residualDeployment t.namespace_) ∧
        ∀ y ∈ pre, y.failed = false) ∧
    ((Run ctx (World.init t s)).1 = .returned none →
      (Run ctx (World.init t s)).2.trace.getLast? =
        some (.client .DeleteDeployment ctx (some (residualDeployment t.namespace_)) none)) ∧
    residualDeployment t.namespace_ =
      { Name := "prometheus-adapter", Namespace := t.namespace_, content := 0 } ∧
    (∀ m, (t.factory m).2 ≠ none →
      Event.factory m (t.factory m) ∈ (Run ctx (World.init t s)).2.trace →
      ∀ c o x, Event.client .DeleteDeployment c o x ∉ (Run ctx (World.init t s)).2.trace) := by
  obtain ⟨_, hran, _⟩ := Run_ran t ctx s hen
  generalize (Run ctx (World.init t s)).2.trace = tr at hran ⊢
  generalize (Run ctx (World.init t s)).1 = out at hran ⊢
  obtain ⟨before, hsplit, hbefore⟩ := plan_split t.factory ctx t.namespace_
  have hfirst : ∀ pre post c o x, tr = pre ++ Event.client .DeleteDeployment c o x :: post →
      post = [] ∧ c = ctx ∧ o = some (residualDeployment t.namespace_) ∧
        ∀ y ∈ pre, y.failed = false := by
    intro pre post c o x htr
    have hpref := hran.forget_prefix
    rw [htr, hsplit, List.map_append, List.map_cons] at hpref
    obtain ⟨h1, h2, _⟩ := at_end_of_prefix (pre.map Event.forget) (post.map Event.forget)
      before (Event.client .DeleteDeployment c o none) _
      (fun hmem => hbefore (Event.client .DeleteDeployment c o none) hmem rfl) hpref
    have hpost : post = [] := by simpa using h1
    have h3 : c = ctx ∧ o = some (residualDeployment t.namespace_) := by
      simp only [Event.forget, Event.client.injEq, true_and, and_true] at h2
      exact h2
    refine ⟨hpost, h3.1, h3.2, ?_⟩
    rcases hran.normal with ⟨_, _, hok⟩ | ⟨pre0, e0, i, sd, hev0, hpre, _, _, _, _⟩
    · intro y hy
      exact hok y (by rw [htr]; exact List.mem_append_left _ hy)
    · rw [hpost] at htr
      have := List.append_inj' (hev0.symm.trans htr) rfl
      rw [← this.1]
      exact hpre
  refine ⟨hfirst, ?_, rfl, ?_⟩
  · intro ho
    rcases hran.normal with ⟨_, hev, _⟩ | ⟨pre0, e0, i, sd, _, _, _, _, _, hstop⟩
    · rw [hev, hsplit, List.getLast?_concat]
    · exact (hstop.ne_nil ho).elim
  · intro m hne hmem c o x hdd
    obtain ⟨p, q, hpq⟩ := List.append_of_mem hdd
    obtain ⟨hq, _, _, hp⟩ := hfirst p q c o x hpq
    have hfail : (Event.factory m (t.factory m)).failed = true := by
      rcases h2 : (t.factory m).2 with _ | e
      · exact (hne h2).elim
      · simp [Event.failed, h2]
    rw [hpq, hq] at hmem
    rcases List.mem_append.1 hmem with h1 | h1
    · exact Bool.false_ne_true ((hp _ h1).symm.trans hfail)
    · simp at h1

theorem residual_delete_witness :
    (sampleTask okFactory okClient).enabled = true ∧
    ((Run runCtx (World.init (sampleTask okFactory okClient) ())).1 = .returned none →
      (Run runCtx (World.init (sampleTask okFactory okClient) ())).2.trace.getLast? =
        some (.client .DeleteDeployment runCtx
          (some (residualDeployment "openshift-monitoring")) none)) :=
  ⟨rfl, (residual_delete (sampleTask okFactory okClient) runCtx () rfl).2.1⟩

/-- C8, as the spec words it, fails: when the factory cannot produce an object
of the retired component (here its PodDisruptionBudget), `Run` returns the
factory's error and the residual deployment is not deleted. -/
theorem residual_delete_refuted :
    (Run runCtx (World.init (sampleTask
      (failingFactory .PrometheusAdapterPodDisruptionBudget otherError) okClient) ())).1 =
      .returned (some (.withMessage otherError
        "initializing PrometheusAdapter PodDisruptionBudget failed")) ∧
    ClientMethod.DeleteDeployment ∉
      (clientCalls (Run runCtx (World.init (sampleTask
        (failingFactory .PrometheusAdapterPodDisruptionBudget otherError) okClient)
        ())).2.trace).map Prod.fst := by
  decide

theorem runSteps_cons {σ : Type} (t : MetricsServerTask σ) (ctx : Context) (sd : Step)
    (rest : List Step) (w : World σ) :
    runSteps t ctx (sd :: rest) w =
      (match runStep t ctx sd w with
       | (some out, w) => (out, w)
       | (none, w) => runSteps t ctx rest w) := rfl

/-- A step reads the receiver's struct only through the task it is given: the
struct held by the world is carried along unchanged. -/
theorem runStep_self {σ : Type} (t x : MetricsServerTask σ) (ctx : Context) (sd : Step)
    (w : World σ) :
    runStep t ctx sd { self := x, cluster := w.cluster, trace := w.trace } =
      ((runStep t ctx sd w).1,
       { self := x, cluster := (runStep t ctx sd w).2.cluster,
         trace := (runStep t ctx sd w).2.trace }) := by
  rcases sd with ⟨src, cm, opt, msg⟩
  rcases src with ⟨m, initMsg⟩ | o
  · simp only [runStep, applyStep, factoryCall, clientCall]
    split <;> [rfl; (split <;> [rfl; (split <;> rfl)])]
  · simp only [runStep, applyStep, clientCall]
    split <;> [rfl; (split <;> rfl)]

theorem runSteps_self {σ : Type} (t x : MetricsServerTask σ) (ctx : Context)
    (steps : List Step) :
    ∀ w : World σ, runSteps t ctx steps { self := x, cluster := w.cluster, trace := w.trace } =
      ((runSteps t ctx steps w).1,
       { self := x, cluster := (runSteps t ctx steps w).2.cluster,
         trace := (runSteps t ctx steps w).2.trace }) := by
  induction steps with
  | nil => intro w; rfl
  | cons sd rest ih =>
    intro w
    rw [runSteps_cons, runSteps_cons, runStep_self]
    rcases h : runStep t ctx sd w with ⟨_ | out, w'⟩
    · exact ih w'
    · rfl

/-- A plan run depends on the task only through its factory and its client. -/
theorem runSteps_task {σ : Type} (t t' : MetricsServerTask σ) (ctx : Context)
    (hf : t.factory = t'.factory) (hc : t.client = t'.client) (steps : List Step) :
    ∀ w : World σ, runSteps t ctx steps w = runSteps t' ctx steps w := by
  induction steps with
  | nil => intro w; rfl
  | cons sd rest ih =>
    intro w
    have h : runStep t ctx sd w = runStep t' ctx sd w := by
      unfold runStep applyStep
      rw [hf, hc]
    rw [runSteps_cons, runSteps_cons, h]
    rcases runStep t' ctx sd w with ⟨_ | out, w'⟩
    · exact ih w'
    · rfl

/-- C10. For two tasks that differ only in the context given to
`NewMetricsServerTask`, `Run` with the same argument context returns the same
result, logs the same calls and leaves the same cluster; every client call it
makes carries the context passed to `Run`; and `Run` leaves the fields of the
task as they were. -/
theorem context_provenance {σ : Type} (c1 c2 ctx : Context) (ns : String) (cl : Client σ)
    (en : Bool) (f : Factory) (cfg : Config) (s : σ) :
    (Run ctx (World.init (NewMetricsServerTask c1 ns cl en f cfg) s)).1 =
      (Run ctx (World.init (NewMetricsServerTask c2 ns cl en f cfg) s)).1 ∧
    (Run ctx (World.init (NewMetricsServerTask c1 ns cl en f cfg) s)).2.trace =
      (Run ctx (World.init (NewMetricsServerTask c2 ns cl en f cfg) s)).2.trace ∧
    (Run ctx (World.init (NewMetricsServerTask c1 ns cl en f cfg) s)).2.cluster =
      (Run ctx (World.init (NewMetricsServerTask c2 ns cl en f cfg) s)).2.cluster ∧
    (∀ m c o x, Event.client m c o x ∈
        (Run ctx (World.init (NewMetricsServerTask c1 ns cl en f cfg) s)).2.trace → c = ctx) ∧
    (Run ctx (World.init (NewMetricsServerTask c1 ns cl en f cfg) s)).2.self =
      NewMetricsServerTask c1 ns cl en f cfg := by
  cases en with
  | false => exact ⟨rfl, rfl, rfl, by intro m c o x h; simp [Run, NewMetricsServerTask, World.init] at h, rfl⟩
  | true =>
    have h1 := Run_enabled ctx (World.init (NewMetricsServerTask c1 ns cl true f cfg) s) rfl
    have h2 := Run_enabled ctx (World.init (NewMetricsServerTask c2 ns cl true f cfg) s) rfl
    have h3 : runSteps (NewMetricsServerTask c1 ns cl true f cfg) ctx (plan ns)
        (World.init (NewMetricsServerTask c1 ns cl true f cfg) s) =
        ((runSteps (NewMetricsServerTask c2 ns cl true f cfg) ctx (plan ns)
          (World.init (NewMetricsServerTask c2 ns cl true f cfg) s)).1,
         { self := NewMetricsServerTask c1 ns cl true f cfg,
           cluster := (runSteps (NewMetricsServerTask c2 ns cl true f cfg) ctx (plan ns)
            (World.init (NewMetricsServerTask c2 ns cl true f cfg) s)).2.cluster,
           trace := (runSteps (NewMetricsServerTask c2 ns cl true f cfg) ctx (plan ns)
            (World.init (NewMetricsServerTask c2 ns cl true f cfg) s)).2.trace }) := by
      rw [runSteps_task (NewMetricsServerTask c1 ns cl true f cfg)
        (NewMetricsServerTask c2 ns cl true f cfg) ctx rfl rfl]
      exact runSteps_self _ _ ctx (plan ns) (World.init (NewMetricsServerTask c2 ns cl true f cfg) s)
    obtain ⟨hself, hran, _⟩ := Run_ran (NewMetricsServerTask c1 ns cl true f cfg) ctx s rfl
    have h1' : Run ctx (World.init (NewMetricsServerTask c1 ns cl true f cfg) s) =
        runSteps (NewMetricsServerTask c1 ns cl true f cfg) ctx (plan ns)
          (World.init (NewMetricsServerTask c1 ns cl true f cfg) s) := h1
    have h2' : Run ctx (World.init (NewMetricsServerTask c2 ns cl true f cfg) s) =
        runSteps (NewMetricsServerTask c2 ns cl true f cfg) ctx (plan ns)
          (World.init (NewMetricsServerTask c2 ns cl true f cfg) s) := h2
    refine ⟨?_, ?_, ?_, ?_, hself⟩
    · rw [h1', h2', h3]
    · rw [h1', h2', h3]
    · rw [h1', h2', h3]
    · intro m c o x hmem
      obtain ⟨_, _, _, hc, _⟩ := hran.client_mem m c o x hmem
      exact hc

/-! ## Messages -/

theorem storeAfter_append (a b : List Event) :
    ∀ s : Store, storeAfter (a ++ b) s = storeAfter b (storeAfter a s) := by
  induction a with
  | nil => intro s; rfl
  | cons e rest ih => intro s; exact ih (e.store s)

theorem storeAfter_produceEvents (f : Factory) (sd : Step) (s : Store) :
    storeAfter (sd.produceEvents f) s = s := by
  rcases hsrc : sd.source with ⟨m, msg⟩ | o <;> simp [Step.produceEvents, hsrc, storeAfter, Event.store]

theorem storeClient_call (m : ClientMethod) (ctx : Context) (o : Option Object) (s : Store) :
    storeClient.call m ctx o s = (none, (Event.client m ctx o none).store s) := by
  cases o <;> rfl

theorem quietRun_stop (f : Factory) (ctx : Context) (sd : Step) (rest : List Step)
    (hp : ¬ (sd.produced f).2 = none) :
    quietRun f ctx (sd :: rest) =
      (sd.produceEvents f, .returned (Wrap (sd.produced f).2 sd.initMsg)) := by
  simp only [quietRun, if_neg hp]

theorem quietRun_pass (f : Factory) (ctx : Context) (sd : Step) (rest : List Step)
    (hp : (sd.produced f).2 = none) :
    quietRun f ctx (sd :: rest) =
      (sd.passEvents f ctx ++ (quietRun f ctx rest).1, (quietRun f ctx rest).2) := by
  simp only [quietRun, if_pos hp]

/-- Behind the store client a plan run is the quiet run: its outcome and log are
those of `quietRun`, and the cluster is the store after that log. -/
theorem runSteps_store (t : MetricsServerTask Store) (ctx : Context)
    (hcl : t.client = storeClient) (steps : List Step) :
    ∀ w : World Store,
      (runSteps t ctx steps w).1 = (quietRun t.factory ctx steps).2 ∧
      (runSteps t ctx steps w).2.trace = w.trace ++ (quietRun t.factory ctx steps).1 ∧
      (runSteps t ctx steps w).2.cluster =
        storeAfter (quietRun t.factory ctx steps).1 w.cluster ∧
      (runSteps t ctx steps w).2.self = w.self := by
  induction steps with
  | nil => intro w; exact ⟨rfl, by simp [runSteps, quietRun], rfl, rfl⟩
  | cons sd rest ih =>
    intro w
    rcases runStep_cases t ctx sd w with ⟨m, msg, hsrc, hne, h⟩ | ⟨hp, hskip, h⟩ |
      ⟨hp, hcall, res, s', hc, h⟩
    · have hp : ¬ (sd.produced t.factory).2 = none := by
        simpa [Step.produced, hsrc] using hne
      rw [runSteps_stop _ _ _ _ _ _ _ h]
      rw [quietRun_stop t.factory ctx sd rest hp]
      refine ⟨?_, ?_, ?_, rfl⟩
      · simp [Step.produced, Step.initMsg, hsrc]
      · simp [Step.produceEvents, hsrc]
      · simp [Step.produceEvents, hsrc, storeAfter, Event.store]
    · rw [runSteps_next _ _ _ _ _ _ h]
      obtain ⟨h1, h2, h3, h4⟩ := ih { w with trace := w.trace ++ sd.produceEvents t.factory }
      rw [quietRun_pass t.factory ctx sd rest hp, passEvents_skip t.factory ctx sd hskip]
      refine ⟨h1, ?_, ?_, h4⟩
      · rw [h2, List.append_assoc]
      · rw [h3, storeAfter_append, storeAfter_produceEvents]
    · rw [hcl, storeClient_call] at hc
      have hres : res = none := (congrArg Prod.fst hc).symm
      have hs' : s' = (Event.client sd.method ctx (sd.produced t.factory).1 none).store
          w.cluster := (congrArg Prod.snd hc).symm
      subst hres
      rw [if_neg (by simp)] at h
      rw [runSteps_next _ _ _ _ _ _ h]
      obtain ⟨h1, h2, h3, h4⟩ := ih
        { self := w.self, cluster := s',
          trace := w.trace ++ (sd.produceEvents t.factory ++
            [Event.client sd.method ctx (sd.produced t.factory).1 none]) }
      rw [quietRun_pass t.factory ctx sd rest hp, passEvents_call t.factory ctx sd hcall]
      refine ⟨h1, ?_, ?_, h4⟩
      · rw [h2, List.append_assoc]
      · rw [h3, storeAfter_append, storeAfter_append, storeAfter_produceEvents, hs']
        rfl

/-- The store after a log holds, under each key, the last write of the log to
that key, and what it held before where the log does not write. -/
theorem storeAfter_apply (k : ObjectKey) (evs : List Event) :
    ∀ s : Store, storeAfter evs s k =
      (match lastWrite k evs with
       | some v => v
       | none => s k) := by
  induction evs with
  | nil => intro s; rfl
  | cons e rest ih =>
    intro s
    simp only [storeAfter, lastWrite]
    rw [ih]
    rcases lastWrite k rest with _ | v
    · cases e with
      | factory m res => rfl
      | client m c o r =>
        cases o with
        | none => rfl
        | some obj =>
          simp only [Event.store]
          by_cases hk : obj.key m.kind = k
          · subst hk; simp
          · simp [hk, Function.update_noteq (Ne.symm hk)]
    · rfl

/-- Applying a log to a store twice leaves what applying it once leaves. -/
theorem storeAfter_idem (evs : List Event) (s : Store) :
    storeAfter evs (storeAfter evs s) = storeAfter evs s := by
  funext k
  rw [storeAfter_apply k evs (storeAfter evs s), storeAfter_apply k evs s]
  rcases lastWrite k evs with _ | v <;> rfl

theorem quietRun_ok (f : Factory) (ctx : Context) (hf : ∀ m, (f m).2 = none)
    (steps : List Step) : (quietRun f ctx steps).2 = .returned none := by
  induction steps with
  | nil => rfl
  | cons sd rest ih =>
    have hp : (sd.produced f).2 = none := by
      rcases hsrc : sd.source with ⟨m, msg⟩ | o <;> simp [Step.produced, hsrc, hf]
    rw [quietRun_pass f ctx sd rest hp]
    exact ih

/-- C9, as amended. With a factory that answers the same on every call and the
client that records applied state, for every initial store, running `Run` a
second time on an enabled task, in the world the first run left, leaves the
store the first run left and returns what the first run returned; the second
run returns nil when every factory call succeeds. -/
theorem rerun_converges (t : MetricsServerTask Store) (ctx : Context) (s : Store)
    (hen : t.enabled = true) (hcl : t.client = storeClient) :
    (Run ctx (Run ctx (World.init t s)).2).2.cluster = (Run ctx (World.init t s)).2.cluster ∧
    (Run ctx (Run ctx (World.init t s)).2).1 = (Run ctx (World.init t s)).1 ∧
    ((∀ m, (t.factory m).2 = none) →
      (Run ctx (Run ctx (World.init t s)).2).1 = .returned none) := by
  have e1 : Run ctx (World.init t s) = runSteps t ctx (plan t.namespace_) (World.init t s) :=
    Run_enabled ctx (World.init t s) hen
  obtain ⟨a1, _, a3, a4⟩ := runSteps_store t ctx hcl (plan t.namespace_) (World.init t s)
  have hself : (Run ctx (World.init t s)).2.self = t := by rw [e1]; exact a4
  have e2 : Run ctx (Run ctx (World.init t s)).2 =
      runSteps t ctx (plan t.namespace_) (Run ctx (World.init t s)).2 := by
    have := Run_enabled ctx (Run ctx (World.init t s)).2 (by rw [hself]; exact hen)
    rw [hself] at this
    exact this
  obtain ⟨b1, _, b3, _⟩ := runSteps_store t ctx hcl (plan t.namespace_)
    (Run ctx (World.init t s)).2
  refine ⟨?_, ?_, ?_⟩
  · rw [e2, b3, e1, a3]
    exact storeAfter_idem _ _
  · rw [e2, b1, e1, a1]
  · intro hf
    rw [e2, b1]
    exact quietRun_ok t.factory ctx hf _

theorem rerun_converges_witness :
    (sampleTask okFactory storeClient).enabled = true ∧
    (sampleTask okFactory storeClient).client = storeClient ∧
    (Run runCtx (Run runCtx (World.init (sampleTask okFactory storeClient)
        (fun _ => none))).2).2.cluster =
      (Run runCtx (World.init (sampleTask okFactory storeClient) (fun _ => none))).2.cluster ∧
    (Run runCtx (Run runCtx (World.init (sampleTask okFactory storeClient)
        (fun _ => none))).2).1 = .returned none :=
  ⟨rfl, rfl,
    (rerun_converges (sampleTask okFactory storeClient) runCtx (fun _ => none) rfl rfl).1,
    (rerun_converges (sampleTask okFactory storeClient) runCtx (fun _ => none) rfl rfl).2.2
      (fun _ => rfl)⟩

/-- C9, as the spec words it, fails: with a factory whose first method fails on
every call, the second run does not return nil but the factory's error, as the
first run did. -/
theorem rerun_refuted :
    (Run runCtx (Run runCtx (World.init (sampleTask
      (failingFactory .MetricsServerServiceAccount otherError) storeClient)
      (fun _ => none))).2).1 =
      .returned (some (.withMessage otherError
        "initializing MetricsServer ServiceAccount failed")) ∧
    (Run runCtx (Run runCtx (World.init (sampleTask
      (failingFactory .MetricsServerServiceAccount otherError) storeClient)
      (fun _ => none))).2).1 ≠ .returned none := by
  decide

end MetricsServer
